import Mathlib

/-!
Verification development for the StationsWithoutRDS FM-DX-Webserver plugin.

The repository ships three generations of the server module in one source
file (an early request/response server, a legacy monitor, and the current
monitor), plus a browser-side display script.  We shallowly embed the parts
of each generation that the verified properties are about:

* JS strings are modelled as `List Char` (`JStr`), JS numbers as `ℚ`
  (exact arithmetic standing in for IEEE doubles), timestamps as `Nat`
  milliseconds, and JS `null`/`undefined` as `Option.none`.
* `Math.round` is round-half-up (`jsRound`), `toFixed` is modelled by exact
  decimal rounding (`toFixed3`, `toFixed1`).
* Asynchronous suspension points (the dataset / logo fetches and the
  `await searchStations` inside `broadcastFindOnce`) are modelled by
  splitting the functions at the suspension: the synchronous prefix is a
  pure state transition that records a dispatch, and the continuation is a
  separate pure function applied to the fetched value.  The transcendental
  great-circle helpers (`haversine`, `bearing`) are ambient function
  parameters of the environment, since only comparisons of their results
  matter to the verified properties.
-/

namespace SWRDS

/-- JS strings, modelled as lists of characters. -/
abbrev JStr := List Char

/-- Conversion from Lean string literals into the `JStr` model. -/
def str (s : String) : JStr := s.data

/-- JS `Math.round`: round half toward positive infinity. -/
def jsRound (q : ℚ) : ℤ := ⌊q + 1/2⌋

/-- JS `Number(x.toFixed(3))`: round to three decimal places. -/
def toFixed3 (q : ℚ) : ℚ := (jsRound (q * 1000) : ℚ) / 1000

/-- JS `Number(x.toFixed(1))`: round to one decimal place. -/
def toFixed1 (q : ℚ) : ℚ := (jsRound (q * 10) : ℚ) / 10

/-- Truthiness of a JS string value (`undefined`/`null`/`''` are falsy). -/
def truthyStr (s : Option JStr) : Bool :=
  match s with
  | none => false
  | some l => !l.isEmpty

/-- Truthiness of a JS number value (`undefined`/`null`/`0` are falsy;
the model cannot produce `NaN`, which is also falsy in JS). -/
def truthyNum (q : Option ℚ) : Bool :=
  match q with
  | none => false
  | some v => v ≠ 0

end SWRDS

namespace SWRDS

namespace V3

/-!  The current server module.  `normalizeFreq` snaps a raw frequency to
one of two channel grids: the 65.9–74.0 MHz band with a 30 kHz step, and
the 74.0–108.0 MHz band with a 100 kHz step. -/

/-- Core of `normalizeFreq` for one band: snap `n` to the band's grid and
reject results that leave `[mn - 1e-9, mx + 1e-9]`. -/
def normalizeFreqBand (n mn mx step : ℚ) : Option ℚ :=
  let khz := n * 1000
  let roundedKHz : ℚ := (jsRound (khz / step) : ℚ) * step
  let out := roundedKHz / 1000
  if out < mn - 1/1000000000 ∨ out > mx + 1/1000000000 then none
  else some (toFixed3 out)

/-- Model of `normalizeFreq` on an actual (finite) number.  The `n = 74` arm is kept
from the source even though the first test already captures 74.0. -/
def normalizeFreqNum (n : ℚ) : Option ℚ :=
  if 65.9 ≤ n ∧ n ≤ 74 then normalizeFreqBand n (65.9) 74 30
  else if 74 < n ∧ n ≤ 108 then normalizeFreqBand n 74 108 100
  else if n = 74 then normalizeFreqBand n 74 108 100
  else none

/-- Model of `normalizeFreq` on a JS value: `Number(null) = 0` falls outside both
bands, and non-numeric input (`undefined`, yielding `NaN`) is rejected by
the `Number.isFinite` guard; both give `null`. -/
def normalizeFreq (f : Option ℚ) : Option ℚ :=
  match f with
  | some n => normalizeFreqNum n
  | none => normalizeFreqNum 0

end V3

end SWRDS

namespace SWRDS

/-! JS string primitives used by the normalization and logo-matching code.
All are structurally recursive so that concrete instances evaluate in the
kernel. -/

/-- JS `toUpperCase` (ASCII). -/
def toUpperJ (s : JStr) : JStr := s.map Char.toUpper

/-- JS `toLowerCase` (ASCII). -/
def toLowerJ (s : JStr) : JStr := s.map Char.toLower

/-- ASCII whitespace, for the `\s` character class. -/
def isWs (c : Char) : Bool := c = ' ' || c = '\t' || c = '\n' || c = '\r'

/-- The `\w` character class: letters, digits, underscore. -/
def isWordChar (c : Char) : Bool :=
  ('a' ≤ c && c ≤ 'z') || ('A' ≤ c && c ≤ 'Z') || ('0' ≤ c && c ≤ '9') || c = '_'

/-- Uppercase hexadecimal digit, for the `[0-9A-F]` character class. -/
def isHexUp (c : Char) : Bool := ('0' ≤ c && c ≤ '9') || ('A' ≤ c && c ≤ 'F')

/-- Worker for `replaceAllJ`; the fuel argument starts at the string length
and bounds the recursion structurally. -/
def goRep (pat rep : JStr) : Nat → JStr → JStr
  | _, [] => []
  | 0, s => s
  | fuel + 1, c :: rest =>
    if !pat.isEmpty && pat.isPrefixOf (c :: rest) then
      rep ++ goRep pat rep fuel ((c :: rest).drop pat.length)
    else
      c :: goRep pat rep fuel rest

/-- JS `s.replace(/pat/g, rep)` for a literal pattern: single left-to-right
pass, non-overlapping, no rescan of the replacement. -/
def replaceAllJ (pat rep s : JStr) : JStr := goRep pat rep s.length s

/-- JS `s.replace(pat, rep)` with a plain-string pattern: first occurrence
only. -/
def replaceFirstJ (pat rep : JStr) : JStr → JStr
  | [] => []
  | c :: rest =>
    if !pat.isEmpty && pat.isPrefixOf (c :: rest) then
      rep ++ (c :: rest).drop pat.length
    else
      c :: replaceFirstJ pat rep rest

/-- JS `hay.includes(needle)`. -/
def containsJ : JStr → JStr → Bool
  | [], needle => needle.isEmpty
  | c :: t, needle => needle.isPrefixOf (c :: t) || containsJ t needle

/-- JS `s.replaceAll(' ', '')`. -/
def removeSpaces (s : JStr) : JStr := s.filter (fun c => !(c = ' '))

/-- First-occurrence deduplication, as `[...new Set(xs)]`. -/
def dedupAux : List JStr → List JStr → List JStr
  | _, [] => []
  | seen, x :: xs =>
    if seen.contains x then dedupAux seen xs else x :: dedupAux (x :: seen) xs

def dedupJ (xs : List JStr) : List JStr := dedupAux [] xs

/-- First-match association lookup, as JS object indexing over the modelled
key/value list. -/
def assoc {α : Type} (m : List (JStr × α)) (k : JStr) : Option α :=
  (m.find? (fun p => p.1 == k)).map (·.2)

end SWRDS

namespace SWRDS

namespace V3

/-- Model of `normalizePi`: uppercase, strip all non-hexadecimal characters, and
treat an empty result as absent (`null`). -/
def normalizePi (pi : Option JStr) : Option JStr :=
  let s := (toUpperJ (pi.getD [])).filter isHexUp
  if s.isEmpty then none else some s

/-- Model of `normalizeName`: uppercase, delete every `RADIO`, collapse (delete)
whitespace, strip non-word characters. -/
def normalizeName (s : JStr) : JStr :=
  ((replaceAllJ (str "RADIO") [] (toUpperJ s)).filter (fun c => !isWs c)).filter
    isWordChar

/-- The anchored `s.replace(/^RADIO/, '')`. -/
def stripLeadRAD (s : JStr) : JStr :=
  if (str "RADIO").isPrefixOf s then s.drop 5 else s

/-- Station-name normalization used against the remote catalog: the shared
`normalizeName` plus removal of any leading or remaining `RADIO`. -/
def normalizeStation (s : JStr) : JStr :=
  replaceAllJ (str "RADIO") [] (stripLeadRAD (normalizeName s))

/-- Image-extension list of the `stripExt` regex. -/
def extList : List JStr :=
  [str "svg", str "gif", str "webp", str "png", str "jpg", str "jpeg"]

/-- Model of `stripExt`: drop a trailing `.ext` for a known image extension,
case-insensitively. -/
def stripExt (s : JStr) : JStr :=
  match extList.find? (fun e => List.isSuffixOf ('.' :: e) (toLowerJ s)) with
  | some e => s.take (s.length - (e.length + 1))
  | none => s

/-- Model of `stripHexPrefix`: drop a leading run of uppercase hex digits followed
by an underscore (`/^[0-9A-F]+_/`). -/
def stripHexPre (s : JStr) : JStr :=
  let run := s.takeWhile isHexUp
  if run.isEmpty then s
  else
    match s.drop run.length with
    | '_' :: rest => rest
    | _ => s

/-- File-name normalization for the remote catalog (keeps `RADIO`). -/
def normalizeFile (f : JStr) : JStr := normalizeName (stripHexPre (stripExt f))

/-- Stronger file-name normalization for the final fallback pass (also
strips `RADIO`). -/
def normalizeFileStrong (f : JStr) : JStr :=
  normalizeStation (stripHexPre (stripExt f))

/-- A record of the remote id → logo catalog; `logoUrl` may be missing. -/
structure FmlistRec where
  logoUrl : Option JStr
deriving DecidableEq

/-- Ambient state of the logo resolver: the id catalog, the local
name → file catalog (insertion order), and the resolved remote per-country
listing (`getNoobishLogos`, with fetch failures already cached as `[]`). -/
structure LogoEnv where
  fmlistLogos : List (JStr × FmlistRec)
  localLogos : List (JStr × JStr)
  noobish : JStr → List JStr

/-- The candidate fields that `findLogoUrl` inspects. -/
structure LogoQuery where
  itu : Option JStr
  station : Option JStr
  pi : Option JStr
  idStationPresent : Bool
  idStation : Option JStr

def mkLocal (file : JStr) : JStr := str "/logos/" ++ file

def makeUrl (itu file : JStr) : JStr :=
  str "https://proxy.fm-tuner.ru/https://tef.noobish.eu/logos/" ++ itu ++
    '/' :: file

def defaultLogo : JStr :=
  str "https://proxy.fm-tuner.ru/https://tef.noobish.eu/logos/default-logo.png"

/-- The inner `tryFind` closure of the local tier: exact normalized-key
match, then (when `strongly`) mutual containment; entries with an empty
file value are skipped by the `if (file)` guard. -/
def tryFindLocal (env : LogoEnv) (search : JStr) (strongly : Bool) :
    Option JStr :=
  if search.isEmpty then none
  else
    match env.localLogos.find?
        (fun p => normalizeName p.1 == normalizeName search && !p.2.isEmpty) with
    | some p => some (mkLocal p.2)
    | none =>
      if strongly then
        (env.localLogos.find?
            (fun p =>
              (containsJ (normalizeName p.1) (normalizeName search) ||
                containsJ (normalizeName search) (normalizeName p.1)) &&
                !p.2.isEmpty)).map
          (fun p => mkLocal p.2)
      else none

/-- The local tier of `findLogoUrl`: first the normalized station name,
then (partial matching allowed) the PI code unless it reads `NOPI`. -/
def localTier (env : LogoEnv) (q : LogoQuery) (target : JStr) : Option JStr :=
  match tryFindLocal env target false with
  | some u => some u
  | none =>
    if truthyStr q.pi && !(toUpperJ (q.pi.getD []) == str "NOPI") then
      tryFindLocal env (q.pi.getD []) true
    else none

/-- The PI tiers of the remote catalog search: exact `PI_NAME` file match,
then exact `PI` file match. -/
def piTier (files : List JStr) (itu sName : JStr) (piNorm : Option JStr) :
    Option JStr :=
  match piNorm with
  | some p =>
    match files.find?
        (fun f => stripExt f == p ++ '_' :: removeSpaces sName) with
    | some f => some (makeUrl itu f)
    | none => (files.find? (fun f => stripExt f == p)).map (makeUrl itu)
  | none => none

/-- The deduplicated normalized station-name variants (with/without a
leading `RADIO`, with/without spaces). -/
def stationNormsOf (sName : JStr) : List JStr :=
  dedupJ
    (([sName, removeSpaces sName, stripLeadRAD sName,
        removeSpaces (stripLeadRAD sName)].filter
      (fun c => !c.isEmpty)).map normalizeStation)

/-- The name tiers of the remote catalog search: exact normalized match,
partial match guarded by a minimum token length of 3, strong partial match
(hex id and `RADIO` stripped from file names), then the fixed default. -/
def nameTiers (files : List JStr) (itu : JStr) (stationNorms : List JStr) :
    JStr :=
  match files.find? (fun f => stationNorms.contains (normalizeFile f)) with
  | some f => makeUrl itu f
  | none =>
    match files.find?
        (fun f =>
          stationNorms.any (fun n =>
            3 ≤ n.length &&
              (containsJ (normalizeFile f) n ||
                containsJ n (normalizeFile f)))) with
    | some f => makeUrl itu f
    | none =>
      match files.find?
          (fun f =>
            stationNorms.any (fun n =>
              containsJ (normalizeFileStrong f) n ||
                containsJ n (normalizeFileStrong f))) with
      | some f => makeUrl itu f
      | none => defaultLogo

/-- The remote (`tef.noobish.eu`) tier of `findLogoUrl`: when the country
listing is empty the fixed default is returned, otherwise the PI tiers and
then the name tiers run.  Total: always returns a URL string. -/
def noobishTier (env : LogoEnv) (q : LogoQuery) (itu : JStr) : JStr :=
  if (env.noobish itu).isEmpty then defaultLogo
  else
    match piTier (env.noobish itu) itu (toUpperJ (q.station.getD []))
        (normalizePi (some (q.pi.getD []))) with
    | some u => u
    | none =>
      nameTiers (env.noobish itu) itu
        (stationNormsOf (toUpperJ (q.station.getD [])))

/-- The effective country code: uppercased `itu`, defaulting to `RUS`. -/
def ituOf (q : LogoQuery) : JStr :=
  if (toUpperJ (q.itu.getD [])).isEmpty then str "RUS"
  else toUpperJ (q.itu.getD [])

/-- Model of `findLogoUrl`.  The id-catalog tier returns the mapped record's
`logoUrl` field as-is (possibly `undefined`, modelled as `none`); all other
paths return a concrete URL string. -/
def findLogoUrl (env : LogoEnv) (q : LogoQuery) : Option JStr :=
  if q.idStationPresent &&
      (assoc env.fmlistLogos (q.idStation.getD (str "null"))).isSome then
    (assoc env.fmlistLogos (q.idStation.getD (str "null"))).bind (·.logoUrl)
  else
    some
      ((localTier env q (normalizeName (q.station.getD []))).getD
        (noobishTier env q (ituOf q)))

/-! The geo-dataset search (`searchInMaps`, `searchInMyStations`,
`searchStations`) of the current module. -/

/-- A raw station entry of a dataset location. -/
structure Station where
  freq : Option ℚ
  station : Option JStr
  pi : Option JStr
  pol : Option JStr
  erp : Option ℚ
  inactive : Bool
  idStation : Option JStr

/-- A dataset location: coordinate, name, country code and its stations. -/
structure Loc where
  lat : ℚ
  lon : ℚ
  name : Option JStr
  itu : Option JStr
  stations : List Station

/-- A user-list (`myStantions`) entry.  `antennaPresent` models the JS
`'antenna' in s` key-presence test. -/
structure MyStation where
  freq : Option ℚ
  station : Option JStr
  location : Option JStr
  itu : Option JStr
  distance : Option ℚ
  azimuth : Option ℚ
  pi : Option JStr
  pol : Option JStr
  erp : Option ℚ
  logoUrl : Option JStr
  antennaPresent : Bool
  antenna : Option ℚ
  ant : Option ℚ

/-- Threshold-map keys as already-parsed entries of the configured
`thresholdSignals` JSON object: an exact frequency key, a `min-max` range
key, or the `all` catch-all (the JSON key strings are modelled in parsed
form; nothing verified here depends on the string parsing itself). -/
inductive ThreshKey where
  | exactK (q : ℚ)
  | rangeK (a b : ℚ)
  | allK
deriving DecidableEq

/-- The plugin configuration snapshot, after `readJsonSafe` coercions. -/
structure Cfg where
  mode : ℚ
  myStantions : List MyStation
  thresholdSignal : ℚ
  thresholdSignals : Option (List (ThreshKey × ℚ))
  stableTime : ℚ
  maxDistanceKm : ℚ

/-- Model of `Number(pluginConfig.maxDistanceKm || 500)`. -/
def maxDOf (cfg : Cfg) : ℚ := if cfg.maxDistanceKm = 0 then 500 else cfg.maxDistanceKm

/-- Model of `Number(pluginConfig.mode || 1)`. -/
def modeOf (cfg : Cfg) : ℚ := if cfg.mode = 0 then 1 else cfg.mode

/-- Ambient state of the search: receiver coordinate, the great-circle
helpers (transcendental library calls, taken as ambient functions), the two
dataset caches and the logo-resolver environment. -/
structure GeoEnv where
  qthLat : ℚ
  qthLon : ℚ
  hav : ℚ → ℚ → ℚ → ℚ → ℚ
  bear : ℚ → ℚ → ℚ → ℚ → ℚ
  locationsCache : List Loc
  locationsCacheFMLIST : List Loc
  logoEnv : LogoEnv

/-- A produced candidate record. -/
structure CandRec where
  freq : Option ℚ
  station : JStr
  location : JStr
  itu : JStr
  distance : ℚ
  azimuth : ℤ
  pi : JStr
  pol : JStr
  erp : Option ℚ
  idStationPresent : Bool
  idStation : Option JStr
  logoUrl : Option JStr
deriving DecidableEq

/-- Model of `buildRecordFromLocStation`: distance and azimuth computed from the
receiver coordinate and rounded; `R.` expanded once to `Radio `;
`logoUrl` is attached later. -/
def buildRecordFromLocStation (env : GeoEnv) (loc : Loc) (st : Station) :
    CandRec where
  freq := normalizeFreq st.freq
  station := replaceFirstJ (str "R.") (str "Radio ")
    (if truthyStr st.station then st.station.getD [] else str "Unknown")
  location := loc.name.getD []
  itu := toUpperJ (loc.itu.getD [])
  distance := (jsRound (env.hav env.qthLat env.qthLon loc.lat loc.lon) : ℚ)
  azimuth := jsRound (env.bear env.qthLat env.qthLon loc.lat loc.lon)
  pi := if truthyStr st.pi then st.pi.getD [] else []
  pol := if truthyStr st.pol then st.pol.getD [] else []
  erp := st.erp
  idStationPresent := true
  idStation := st.idStation
  logoUrl := none

/-- Model of `st.pi || 'noPI'`, used by the fallback dataset's PI filter. -/
def piOrNoPI (pi : Option JStr) : Option JStr :=
  if truthyStr pi then pi else some (str "noPI")

/-- The per-station filter of the dataset scan: active, frequency matches
when a normalized query frequency is present, PI matches when a normalized
query PI is present (`useNoPI` selects the fallback dataset's
`st.pi || 'noPI'` variant). -/
def stationKeep (f : Option ℚ) (p : Option JStr) (useNoPI : Bool)
    (st : Station) : Bool :=
  !st.inactive &&
    (f.isNone || normalizeFreq st.freq == f) &&
    (p.isNone || normalizePi (if useNoPI then piOrNoPI st.pi else st.pi) == p)

/-- One dataset scan: locations within `maxDistanceKm`, stations passing
`stationKeep`, each built into a candidate record in dataset order. -/
def collectFrom (env : GeoEnv) (cfg : Cfg) (locs : List Loc) (f : Option ℚ)
    (p : Option JStr) (useNoPI : Bool) : List CandRec :=
  locs.flatMap (fun loc =>
    if env.hav env.qthLat env.qthLon loc.lat loc.lon > maxDOf cfg then []
    else
      (loc.stations.filter (stationKeep f p useNoPI)).map
        (buildRecordFromLocStation env loc))

/-- The JS `sort((a, b) => Number(a.distance) - Number(b.distance))`:
a stable sort by ascending distance. -/
def distLE (a b : CandRec) : Bool := a.distance ≤ b.distance

def sortByDistance (l : List CandRec) : List CandRec :=
  l.mergeSort distLE

/-- The logo lookup key of a produced record: dataset records carry the
`idStation` field, user-list records do not. -/
def logoQueryOfCand (r : CandRec) : LogoQuery where
  itu := some r.itu
  station := some r.station
  pi := some r.pi
  idStationPresent := r.idStationPresent
  idStation := r.idStation

/-- The `for (const r of result) r.logoUrl = await findLogoUrl(r)` loop. -/
def assignLogos (env : LogoEnv) (l : List CandRec) : List CandRec :=
  l.map (fun r => { r with logoUrl := findLogoUrl env (logoQueryOfCand r) })

/-- The primary (`maps.fmdx`) scan of `searchInMaps`. -/
def mapsPrim (env : GeoEnv) (cfg : Cfg) (freq : Option ℚ) (pi : Option JStr) :
    List CandRec :=
  collectFrom env cfg env.locationsCache (normalizeFreq freq) (normalizePi pi)
    false

/-- The fallback (`fmlist.ru`) scan of `searchInMaps`. -/
def mapsSec (env : GeoEnv) (cfg : Cfg) (freq : Option ℚ) (pi : Option JStr) :
    List CandRec :=
  collectFrom env cfg env.locationsCacheFMLIST (normalizeFreq freq)
    (normalizePi pi) true

/-- Model of `searchInMaps`: guard, primary scan (sorted, logos attached); when it
produced nothing, the identical fallback scan is returned instead.  The
source re-evaluates the guard inside the fallback branch with the same
inputs, which cannot fire again and is elided. -/
def searchInMaps (env : GeoEnv) (cfg : Cfg) (freq : Option ℚ)
    (pi : Option JStr) : List CandRec :=
  if (normalizeFreq freq).isNone && (normalizePi pi).isNone then []
  else if (assignLogos env.logoEnv
      (sortByDistance (mapsPrim env cfg freq pi))).isEmpty then
    assignLogos env.logoEnv (sortByDistance (mapsSec env cfg freq pi))
  else assignLogos env.logoEnv (sortByDistance (mapsPrim env cfg freq pi))

/-- The user-list filter: frequency matches when a normalized query
frequency is present; when the record has an `antenna` key, the query
antenna must equal `Number(s.antenna ?? s.ant ?? 0)`. -/
def myKeep (f : Option ℚ) (ant : Option ℚ) (s : MyStation) : Bool :=
  (f.isNone || normalizeFreq s.freq == f) &&
    (!s.antennaPresent || ant.getD 0 == (s.antenna.or s.ant).getD 0)

/-- The user-list record mapping: pre-supplied distance (one decimal),
azimuth, and logo; the record's own PI falls back to the query PI. -/
def myRecOf (queryPi : Option JStr) (s : MyStation) : CandRec where
  freq := normalizeFreq s.freq
  station := if truthyStr s.station then s.station.getD [] else str "Unknown"
  location := s.location.getD []
  itu := toUpperJ (s.itu.getD [])
  distance := toFixed1 (s.distance.getD 0)
  azimuth := jsRound (s.azimuth.getD 0)
  pi :=
    if truthyStr s.pi then s.pi.getD []
    else if truthyStr queryPi then queryPi.getD [] else []
  pol := if truthyStr s.pol then s.pol.getD [] else []
  erp := s.erp
  idStationPresent := false
  idStation := none
  logoUrl := if truthyStr s.logoUrl then s.logoUrl else none

/-- The `if (!r.logoUrl) r.logoUrl = await findLogoUrl(r)` loop. -/
def fillLogos (env : LogoEnv) (l : List CandRec) : List CandRec :=
  l.map (fun r =>
    if truthyStr r.logoUrl then r
    else { r with logoUrl := findLogoUrl env (logoQueryOfCand r) })

/-- The filtered and mapped user list, in `myStantions` order. -/
def myPre (cfg : Cfg) (freq : Option ℚ) (pi : Option JStr) (ant : Option ℚ) :
    List CandRec :=
  (cfg.myStantions.filter (myKeep (normalizeFreq freq) ant)).map (myRecOf pi)

/-- Model of `searchInMyStations`: guard, filter, map, stable sort by distance, and
logo fill-in for records without one. -/
def searchInMyStations (env : GeoEnv) (cfg : Cfg) (freq : Option ℚ)
    (pi : Option JStr) (ant : Option ℚ) : List CandRec :=
  if (normalizeFreq freq).isNone && (normalizePi pi).isNone then []
  else fillLogos env.logoEnv (sortByDistance (myPre cfg freq pi ant))

/-- Model of `searchStations`: mode 2 is user-list only, mode 3 is user list with
dataset fallback, anything else is dataset only. -/
def searchStations (env : GeoEnv) (cfg : Cfg) (freq : Option ℚ)
    (pi : Option JStr) (ant : Option ℚ) : List CandRec :=
  if modeOf cfg = 2 then searchInMyStations env cfg freq pi ant
  else if modeOf cfg = 3 then
    if !(searchInMyStations env cfg freq pi ant).isEmpty then
      searchInMyStations env cfg freq pi ant
    else searchInMaps env cfg freq pi
  else searchInMaps env cfg freq pi

/-- The dataset list a `searchInMaps` call actually draws from: nothing
when the guard fires, the fallback scan when the primary scan is empty,
the primary scan otherwise. -/
def mapsUsed (env : GeoEnv) (cfg : Cfg) (freq : Option ℚ)
    (pi : Option JStr) : List CandRec :=
  if (normalizeFreq freq).isNone && (normalizePi pi).isNone then []
  else if (mapsPrim env cfg freq pi).isEmpty then mapsSec env cfg freq pi
  else mapsPrim env cfg freq pi

/-- The user list a `searchInMyStations` call actually draws from. -/
def myUsed (cfg : Cfg) (freq : Option ℚ) (pi : Option JStr) (ant : Option ℚ) :
    List CandRec :=
  if (normalizeFreq freq).isNone && (normalizePi pi).isNone then []
  else myPre cfg freq pi ant

/-! The telemetry monitor of the current module: `monitorState`, the module
globals of the `/text` handler, `stopFindBroadcast` / `startFindBroadcast`
/ `broadcastFindOnce`, threshold resolution, and `onTextMessage`. -/

/-- Model of `monitorState`.  `stableTimer` and `broadcastTimer` model whether the
timer handle is set (`broadcastTimer` carries its interval). -/
structure MonitorState where
  pendingFrequency : Option ℚ
  pendingPi : Option JStr
  pendingAnt : Option ℚ
  stableTimer : Bool
  active : Bool
  activeFrequency : Option ℚ
  activePi : Option JStr
  ant : Option ℚ
  broadcastTimer : Option Nat
  lastBroadcastAt : Nat
  gen : Nat
deriving DecidableEq

/-- The module-level mutable state read by `onTextMessage`: the last seen
frequency, the signal accumulator, the TX throttle timestamp and the
monitor record. -/
structure TextState where
  lastFrequency : Option ℚ
  signalFixed : Bool
  signalSum : ℚ
  signalCount : Nat
  signalWindowStart : Nat
  throttleTs : Nat
  monitor : MonitorState
deriving DecidableEq

/-- One `/text` telemetry frame, with the fields the handler reads. -/
structure TextEvent where
  freq : Option ℚ
  sig : Option ℚ
  pi : Option JStr
  ps : Option JStr
  ant : Option ℚ
  txInfoTx : Option JStr
deriving DecidableEq

/-- Externally visible effects of one handler step: a `find` push on the
plugin channel, or an asynchronous `searchStations` dispatch that captured
the generation counter. -/
inductive OutMsg where
  | findPush (freq : Option ℚ) (pi : Option JStr) (list : List CandRec)
  | dispatchSearch (gen : Nat) (freq : Option ℚ) (pi : Option JStr)
      (ant : Option ℚ)
deriving DecidableEq

/-- The JS error raised by reading a `const` binding inside its temporal
dead zone. -/
inductive JsErr where
  | referenceTDZ
deriving DecidableEq

/-- The handler's PI cleanup: a PI containing `?` or an empty PS means the
identifier is not yet known. -/
def computedPi (e : TextEvent) : Option JStr :=
  if (e.pi.getD []).contains '?' || e.ps == some ([] : JStr) then none
  else e.pi

/-- Model of `hasTx`: the event carries authoritative transmitter info and a usable
PI. -/
def hasTx (e : TextEvent) : Bool :=
  truthyStr e.txInfoTx && truthyStr (computedPi e)

/-- Model of `getThresholdForFrequency`: exact-frequency entries win over range
entries, ranges win over the `all` catch-all, and the scalar
`thresholdSignal` is the final fallback. -/
def getThresholdForFrequency (freq : Option ℚ) (cfg : Cfg) : ℚ :=
  match freq with
  | none => cfg.thresholdSignal
  | some f =>
    match cfg.thresholdSignals with
    | none => cfg.thresholdSignal
    | some m =>
      match m.find? (fun kv =>
          match kv.1 with
          | .exactK kf => |kf - f| < 1/10000
          | _ => false) with
      | some kv => kv.2
      | none =>
        match m.find? (fun kv =>
            match kv.1 with
            | .rangeK a b => min a b ≤ f ∧ f ≤ max a b
            | _ => false) with
        | some kv => kv.2
        | none =>
          match m.find? (fun kv => kv.1 == ThreshKey.allK) with
          | some kv => kv.2
          | none => cfg.thresholdSignal

/-- Model of `Number(pluginConfig.stableTime || 3) * 1000`. -/
def stableTimeMsOf (cfg : Cfg) : ℚ :=
  (if cfg.stableTime = 0 then 3 else cfg.stableTime) * 1000

/-- Model of `stopFindBroadcast`: bump the generation counter (invalidating every
in-flight search), deactivate, and clear the broadcast interval. -/
def stopFindBroadcast (m : MonitorState) : MonitorState :=
  { m with
    gen := m.gen + 1
    active := false
    activeFrequency := none
    activePi := none
    broadcastTimer := none
    lastBroadcastAt := 0 }

/-- The synchronous prefix of `broadcastFindOnce` (up to the
`await searchStations`): when the monitor is active on a truthy frequency
it dispatches a search that captures the current generation. -/
def broadcastDispatch (m : MonitorState) : List OutMsg :=
  if m.active && truthyNum m.activeFrequency then
    [OutMsg.dispatchSearch m.gen m.activeFrequency m.activePi m.ant]
  else []

/-- The JS `pi || null` normalization. -/
def piOrNull (pi : Option JStr) : Option JStr :=
  if truthyStr pi then pi else none

/-- The continuation of `broadcastFindOnce` after `searchStations`
resolves with `list`: the result is dropped when the monitor is no longer
active or the captured generation is stale. -/
def broadcastResolve (m : MonitorState) (myGen : Nat) (freq : Option ℚ)
    (pi : Option JStr) (list : List CandRec) (now : Nat) :
    MonitorState × Option OutMsg :=
  if !m.active then (m, none)
  else if myGen ≠ m.gen then (m, none)
  else
    ({ m with lastBroadcastAt := now },
      some (OutMsg.findPush freq (piOrNull pi) list))

/-- The activation part of `startFindBroadcast`. -/
def startMon (m : MonitorState) (freq : Option ℚ) (pi : Option JStr)
    (ant : Option ℚ) : MonitorState :=
  { m with
    active := true
    activeFrequency := freq
    activePi := piOrNull pi
    ant := ant }

/-- Model of `startFindBroadcast`, state part: activate and (re)arm the 3-second
broadcast interval. -/
def startFindBroadcastSt (m : MonitorState) (freq : Option ℚ)
    (pi : Option JStr) (ant : Option ℚ) : MonitorState :=
  { startMon m freq pi ant with broadcastTimer := some 3000 }

/-- Model of `startFindBroadcast`, effect part: the immediate `broadcastFindOnce`
dispatch. -/
def startFindBroadcastOut (m : MonitorState) (freq : Option ℚ)
    (pi : Option JStr) (ant : Option ℚ) : List OutMsg :=
  broadcastDispatch (startMon m freq pi ant)

/-- Model of `resetMonitorState`: clear the pending identity and the stability
timer, then stop broadcasting. -/
def resetMonitorState (m : MonitorState) : MonitorState :=
  stopFindBroadcast
    { m with
      pendingFrequency := none
      pendingPi := none
      pendingAnt := none
      stableTimer := false }

/-- The frequency-change block of the handler (state part):
`lastFrequency` update, full monitor reset, TX-throttle reset, accumulator
reset. -/
def stageFreqSt (s : TextState) (frequency : Option ℚ) : TextState :=
  if frequency ≠ s.lastFrequency then
    { s with
      lastFrequency := frequency
      monitor := resetMonitorState s.monitor
      throttleTs := 0
      signalFixed := false
      signalSum := 0
      signalCount := 0
      signalWindowStart := 0 }
  else s

/-- The frequency-change block of the handler (effect part): the empty
`find` push clearing the subscriber display. -/
def stageFreqOut (s : TextState) (frequency : Option ℚ) : List OutMsg :=
  if frequency ≠ s.lastFrequency then [OutMsg.findPush none none []] else []

/-- The antenna-change block (state part): stop broadcasting, reset the
accumulator and stability timer, record the new antenna. -/
def stageAntSt (s1 : TextState) (ant : ℚ) : TextState :=
  if some ant ≠ s1.monitor.pendingAnt then
    { s1 with
      monitor := { stopFindBroadcast s1.monitor with
        stableTimer := false
        pendingAnt := some ant }
      signalFixed := false
      signalSum := 0
      signalCount := 0
      signalWindowStart := 0 }
  else s1

/-- The antenna-change block (effect part): the empty `find` push. -/
def stageAntOut (s1 : TextState) (frequency : Option ℚ) (ant : ℚ) :
    List OutMsg :=
  if some ant ≠ s1.monitor.pendingAnt then [OutMsg.findPush frequency none []]
  else []

/-- Start a fresh accumulation window when none is open (`signalWindowStart`
0 is falsy). -/
def windowInit (s : TextState) (now : Nat) : TextState :=
  if s.signalWindowStart = 0 then
    { s with
      signalWindowStart := now
      signalSum := 0
      signalCount := 0 }
  else s

/-- Add the calibrated sample to the window. -/
def accumulate (s : TextState) (sig : ℚ) : TextState :=
  { s with
    signalSum := s.signalSum + sig
    signalCount := s.signalCount + 1 }

/-- Reset the accumulator fields. -/
def clearAccum (s : TextState) : TextState :=
  { s with
    signalWindowStart := 0
    signalSum := 0
    signalCount := 0 }

/-- The fixation assignment: remember the frozen identity and mark the
signal as fixed. -/
def fixState (s : TextState) (frequency : Option ℚ) (pi : Option JStr)
    (ant : ℚ) : TextState :=
  { s with
    signalFixed := true
    monitor := { s.monitor with
      pendingFrequency := frequency
      pendingPi := pi
      pendingAnt := some ant } }

/-- The body of `onTextMessage` past the TX short-circuit, with the
timestamp passed explicitly for `Date.now()`. -/
def onTextBody (cfg : Cfg) (s : TextState) (e : TextEvent) (now : Nat) :
    TextState × List OutMsg :=
  let pi := computedPi e
  let frequency := e.freq
  let signalDbuv := e.sig.getD 0 - 45/4
  let ant := e.ant.getD 0
  let threshold := getThresholdForFrequency frequency cfg
  let s1 := stageFreqSt s frequency
  let out1 := stageFreqOut s frequency
  let freqChanged := frequency ≠ s1.monitor.pendingFrequency
  let piChanged := pi ≠ s1.monitor.pendingPi
  let antChanged := some ant ≠ s1.monitor.pendingAnt
  let s2 := stageAntSt s1 ant
  let out2 := stageAntOut s1 frequency ant
  if ¬ truthyNum frequency then (s2, out1 ++ out2)
  else if s2.signalFixed = false then
    let s4 := accumulate (windowInit s2 now) signalDbuv
    if ((now - s4.signalWindowStart : Nat) : ℚ) < stableTimeMsOf cfg then
      (s4, out1 ++ out2)
    else if s4.signalSum / (s4.signalCount : ℚ) < threshold then
      ({ clearAccum s4 with monitor := stopFindBroadcast s4.monitor },
        out1 ++ out2)
    else
      let s6 := { fixState s4 frequency pi ant with
        monitor := stopFindBroadcast (fixState s4 frequency pi ant).monitor }
      ({ s6 with
          monitor := startFindBroadcastSt s6.monitor frequency pi (some ant) },
        out1 ++ out2 ++ startFindBroadcastOut s6.monitor frequency pi (some ant))
  else
    if freqChanged ∨ piChanged ∨ antChanged then
      ({ s2 with
          signalFixed := false
          signalWindowStart := 0
          signalSum := 0
          signalCount := 0 }, out1 ++ out2)
    else (s2, out1 ++ out2)

/-- Model of `onTextMessage`.  When the event takes the TX short-circuit, the code
evaluates the identifier `frequency` inside the argument object of
`throttledSendTx`; the handler's own `const frequency` is declared only
after this branch, so the read is in the temporal dead zone and raises a
`ReferenceError` before anything is emitted or mutated. -/
def onTextMessage (cfg : Cfg) (s : TextState) (e : TextEvent) (now : Nat) :
    Except JsErr (TextState × List OutMsg) :=
  if hasTx e then Except.error JsErr.referenceTDZ
  else Except.ok (onTextBody cfg s e now)

/-- The `/text` socket handler wraps `onTextMessage(data)` in a
`try { ... } catch { }`, so a raised error produces no effect at all. -/
def handleTextFrame (cfg : Cfg) (s : TextState) (e : TextEvent) (now : Nat) :
    TextState × List OutMsg :=
  match onTextMessage cfg s e now with
  | Except.error _ => (s, [])
  | Except.ok r => r

/-- Run the handler over a timed event trace, collecting effects. -/
def runText (cfg : Cfg) : TextState → List (TextEvent × Nat) →
    TextState × List OutMsg
  | s, [] => (s, [])
  | s, (e, t) :: rest =>
    let r := handleTextFrame cfg s e t
    let r2 := runText cfg r.1 rest
    (r2.1, r.2 ++ r2.2)

/-- Number of not-fixed → fixed transitions along a trace. -/
def fixCount (cfg : Cfg) : TextState → List (TextEvent × Nat) → Nat
  | _, [] => 0
  | s, (e, t) :: rest =>
    let s2 := (handleTextFrame cfg s e t).1
    (if s.signalFixed = false ∧ s2.signalFixed = true then 1 else 0) +
      fixCount cfg s2 rest

def isDispatch : OutMsg → Bool
  | OutMsg.dispatchSearch _ _ _ _ => true
  | _ => false

/-- Number of asynchronous search dispatches among the effects. -/
def dispatchCount (outs : List OutMsg) : Nat := (outs.filter isDispatch).length

end V3

end SWRDS

namespace SWRDS

namespace V2

/-! The legacy monitor module (the middle generation in the source file).
It has no signal accumulator: fixation is instantaneous on a strong
sample, and a per-sample tolerance gate (`threshold - 3`) drops weak
samples while not fixed.  Its `monitorState` has no generation counter.
The telemetry-event type and the PI / threshold computations are identical
to the current module's, so those embeddings are shared. -/

/-- A pending `setTimeout` stability job: the captured identity and
whether the callback stops before restarting. -/
structure StableJob where
  freq : Option ℚ
  pi : Option JStr
  ant : ℚ
  stopFirst : Bool
deriving DecidableEq

/-- The legacy `monitorState` (no generation counter). -/
structure MonState where
  pendingFrequency : Option ℚ
  pendingPi : Option JStr
  pendingAnt : Option ℚ
  stableTimer : Option StableJob
  active : Bool
  activeFrequency : Option ℚ
  activePi : Option JStr
  ant : Option ℚ
  broadcastTimer : Option Nat
  lastBroadcastAt : Nat
deriving DecidableEq

/-- The legacy module globals. -/
structure St where
  lastFrequency : Option ℚ
  signalFixed : Bool
  throttleTs : Nat
  monitor : MonState
deriving DecidableEq

/-- Externally visible effects of one legacy handler step. -/
inductive Out where
  | emptyFind
  | txPush (freq : Option ℚ) (pi : Option JStr)
deriving DecidableEq

/-- The legacy `stopFindBroadcast` (no generation bump). -/
def stopFindBroadcast (m : MonState) : MonState :=
  { m with
    active := false
    activeFrequency := none
    activePi := none
    broadcastTimer := none
    lastBroadcastAt := 0 }

/-- The legacy `resetMonitorState`. -/
def resetMonitorState (m : MonState) : MonState :=
  stopFindBroadcast
    { m with
      pendingFrequency := none
      pendingPi := none
      pendingAnt := none
      stableTimer := none }

/-- The legacy `onTextMessage`: config and computed values, the
frequency-change reset, the TX short-circuit (working here: `frequency`
is declared before it), the instant fix/unfix flags, the tolerance drop,
and the stability-timer scheduling. -/
def onTextMessage (cfg : V3.Cfg) (s : St) (e : V3.TextEvent) (now : Nat) :
    St × List Out :=
  let frequency := e.freq
  let signalDbuv := e.sig.getD 0 - 45/4
  let pi := V3.computedPi e
  let ant := e.ant.getD 0
  let effectiveThreshold := V3.getThresholdForFrequency frequency cfg - 3
  let s1 :=
    if frequency ≠ s.lastFrequency then
      { s with
        lastFrequency := frequency
        monitor := resetMonitorState s.monitor
        throttleTs := 0 }
    else s
  let out1 : List Out :=
    if frequency ≠ s.lastFrequency then [Out.emptyFind] else []
  if V3.hasTx e then
    if 250 ≤ now - s1.throttleTs then
      ({ s1 with throttleTs := now }, out1 ++ [Out.txPush frequency pi])
    else (s1, out1)
  else
    let freqChanged := frequency ≠ s1.monitor.pendingFrequency
    let s2 :=
      if ¬freqChanged ∧ effectiveThreshold ≤ signalDbuv ∧
          s1.signalFixed = false then
        { s1 with signalFixed := true }
      else s1
    let s3 := if freqChanged then { s2 with signalFixed := false } else s2
    if ¬ truthyNum frequency then (s3, out1)
    else if signalDbuv < effectiveThreshold ∧ s3.signalFixed = false then
      ({ s3 with monitor := stopFindBroadcast s3.monitor }, out1)
    else
      let piChanged := pi ≠ s3.monitor.pendingPi
      let antChanged := some ant ≠ s3.monitor.pendingAnt
      if freqChanged ∨ piChanged ∨ antChanged then
        ({ s3 with
            monitor := { s3.monitor with
              pendingFrequency := frequency
              pendingPi := pi
              pendingAnt := some ant
              stableTimer := some ⟨frequency, pi, ant, true⟩ } }, out1)
      else if s3.monitor.active = false ∧ s3.monitor.stableTimer = none then
        ({ s3 with
            monitor := { s3.monitor with
              stableTimer := some ⟨frequency, pi, ant, false⟩ } }, out1)
      else (s3, out1)

end V2

end SWRDS

namespace SWRDS

namespace V1

/-! The earliest generation of the module: the request/response `find`
server on `/data_plugins` with its `processedRequests` deduplication map
and `gcProcessed` garbage collector.  The answered list's content comes
from that generation's `searchStations` and is irrelevant to
deduplication, so a response is recorded by its `requestId`. -/

/-- Model of `processedRequests`: a JS `Map` from requestId to timestamp, modelled
as insertion-ordered key/value pairs. -/
abbrev ProcessedMap := List (JStr × Nat)

/-- The two-minute retention window. -/
def TTLms : Nat := 2 * 60 * 1000

/-- Model of `gcProcessed`: delete every record older than the retention window. -/
def gcProcessed (m : ProcessedMap) (now : Nat) : ProcessedMap :=
  m.filter (fun kv => !(decide (TTLms < now - kv.2)))

/-- Model of `processedRequests.has`. -/
def hasKey (m : ProcessedMap) (k : JStr) : Bool := m.any (fun kv => kv.1 == k)

/-- Model of `processedRequests.set`: overwrite an existing key in place, append a
new one. -/
def setKey (m : ProcessedMap) (k : JStr) (t : Nat) : ProcessedMap :=
  if hasKey m k then m.map (fun kv => if kv.1 == k then (kv.1, t) else kv)
  else m ++ [(k, t)]

/-- The events that touch the map: an incoming `find` request and a
30-second garbage-collection tick. -/
inductive Event where
  | findReq (requestId : Option JStr) (freq : Option ℚ) (time : Nat)
  | gcTick (time : Nat)
deriving DecidableEq

def timeOf : Event → Nat
  | Event.findReq _ _ t => t
  | Event.gcTick t => t

/-- The `action === 'find'` path of the `/data_plugins` handler: a missing
or empty (falsy) `requestId` is dropped, a known one is silently ignored,
and a fresh one is recorded with the current time and answered. -/
def stepFind (m : ProcessedMap) (requestId : Option JStr) (now : Nat) :
    ProcessedMap × Option JStr :=
  match requestId with
  | none => (m, none)
  | some rid =>
    if rid.isEmpty then (m, none)
    else if hasKey m rid then (m, none)
    else (setKey m rid now, some rid)

def step (m : ProcessedMap) : Event → ProcessedMap × Option JStr
  | Event.findReq rid _ t => stepFind m rid t
  | Event.gcTick t => (gcProcessed m t, none)

/-- Run a sequence of events, collecting the requestIds answered. -/
def runEvents (m : ProcessedMap) : List Event → ProcessedMap × List JStr
  | [] => (m, [])
  | ev :: rest =>
    let r := step m ev
    let r2 := runEvents r.1 rest
    (r2.1, r.2.toList ++ r2.2)

/-- How many responses carried this requestId. -/
def responsesFor (rid : JStr) (resps : List JStr) : Nat :=
  (resps.filter (fun x => x == rid)).length

end V1

end SWRDS

namespace SWRDS

namespace V3

/-- A telemetry sample of one uniform scenario: fixed frequency `f`,
antenna `a`, cleaned PI `π`, no transmitter info, and calibrated signal at
or above the resolved threshold. -/
def GoodEvt (cfg : Cfg) (f a : ℚ) (π : Option JStr) (ep : TextEvent × Nat) :
    Prop :=
  ep.1.freq = some f ∧ ep.1.ant = some a ∧ ep.1.txInfoTx = none ∧
  computedPi ep.1 = π ∧
  getThresholdForFrequency (some f) cfg ≤ ep.1.sig.getD 0 - 45/4

/-- The accumulating (not yet fixed) invariant: window opened at `t1`,
identity matching, and the window sum dominated below by
threshold × count. -/
structure AccumInv (cfg : Cfg) (f a : ℚ) (t1 : Nat) (s : TextState) :
    Prop where
  fixed : s.signalFixed = false
  lastF : s.lastFrequency = some f
  pAnt : s.monitor.pendingAnt = some a
  ws : s.signalWindowStart = t1
  wsPos : t1 ≠ 0
  sumOK : getThresholdForFrequency (some f) cfg * s.signalCount ≤ s.signalSum

/-- The fixed (broadcasting) invariant: the identity is frozen as pending
and active, and the 3-second rebroadcast interval is armed. -/
structure FixedInv (f a : ℚ) (π : Option JStr) (s : TextState) : Prop where
  fixed : s.signalFixed = true
  lastF : s.lastFrequency = some f
  pFreq : s.monitor.pendingFrequency = some f
  pPi : s.monitor.pendingPi = π
  pAnt : s.monitor.pendingAnt = some a
  active : s.monitor.active = true
  actF : s.monitor.activeFrequency = some f
  actPi : s.monitor.activePi = piOrNull π
  antF : s.monitor.ant = some a
  timer : s.monitor.broadcastTimer = some 3000

end V3

end SWRDS

namespace SWRDS

/-- Rounding a grid point: the floor of an integer plus one half is that
integer. -/
theorem floor_intCast_add_half (k : ℤ) : ⌊(k : ℚ) + 1/2⌋ = k := by
  rw [Int.floor_eq_iff]
  constructor <;> [skip; push_cast] <;> linarith

theorem jsRound_intCast (k : ℤ) : jsRound (k : ℚ) = k :=
  floor_intCast_add_half k

theorem toFixed3_grid (k : ℤ) (q : ℚ) (h : q * 1000 = (k : ℚ)) :
    toFixed3 q = q := by
  have hq : q = (k : ℚ) / 1000 := by
    field_simp at h ⊢
    linarith
  rw [toFixed3, h, jsRound_intCast, hq]

end SWRDS

namespace SWRDS

namespace V3

/-- A band-1 result is a 30 kHz grid point between 65.91 and 73.98 MHz. -/
theorem band1_shape {n v : ℚ} (h : normalizeFreqBand n (65.9) 74 30 = some v) :
    ∃ k : ℤ, v = 3 * (k : ℚ) / 100 ∧ 2197 ≤ k ∧ k ≤ 2466 := by
  unfold normalizeFreqBand at h
  set k := jsRound (n * 1000 / 30) with hk
  simp only [] at h
  split at h
  · exact absurd h (by simp)
  · rename_i hbound
    push_neg at hbound
    obtain ⟨hlo, hhi⟩ := hbound
    have hout : (k : ℚ) * 30 / 1000 = 3 * (k : ℚ) / 100 := by ring
    refine ⟨k, ?_, ?_, ?_⟩
    · have hv : v = toFixed3 ((k : ℚ) * 30 / 1000) := by
        simpa using h.symm
      rw [hv, toFixed3_grid (30 * k) _ (by push_cast; ring), hout]
    · -- from 3k/100 ≥ 65.9 - 1e-9 deduce k ≥ 2197
      rw [hout] at hlo
      have h3 : (6589 : ℚ) < 3 * (k : ℚ) := by linarith
      have h3' : (6589 : ℤ) < 3 * k := by exact_mod_cast h3
      omega
    · rw [hout] at hhi
      have h3 : (3 : ℚ) * k < 7401 := by linarith
      have h3' : (3 * k : ℤ) < 7401 := by exact_mod_cast h3
      omega

/-- A band-2 result is a 100 kHz grid point between 74.0 and 108.0 MHz. -/
theorem band2_shape {n v : ℚ} (h : normalizeFreqBand n 74 108 100 = some v) :
    ∃ k : ℤ, v = (k : ℚ) / 10 ∧ 740 ≤ k ∧ k ≤ 1080 := by
  unfold normalizeFreqBand at h
  set k := jsRound (n * 1000 / 100) with hk
  simp only [] at h
  split at h
  · exact absurd h (by simp)
  · rename_i hbound
    push_neg at hbound
    obtain ⟨hlo, hhi⟩ := hbound
    have hout : (k : ℚ) * 100 / 1000 = (k : ℚ) / 10 := by ring
    refine ⟨k, ?_, ?_, ?_⟩
    · have hv : v = toFixed3 ((k : ℚ) * 100 / 1000) := by
        simpa using h.symm
      rw [hv, toFixed3_grid (100 * k) _ (by push_cast; ring), hout]
    · rw [hout] at hlo
      have h3 : (739 : ℚ) < k := by linarith
      have h3' : (739 : ℤ) < k := by exact_mod_cast h3
      omega
    · rw [hout] at hhi
      have h3 : (k : ℚ) < 1081 := by linarith
      have h3' : (k : ℤ) < 1081 := by exact_mod_cast h3
      omega

/-- Normalizing a band-1 grid point returns it unchanged. -/
theorem normalizeFreqNum_fix_band1 (k : ℤ) (h1 : 2197 ≤ k) (h2 : k ≤ 2466) :
    normalizeFreqNum (3 * (k : ℚ) / 100) = some (3 * (k : ℚ) / 100) := by
  have hklo : (2197 : ℚ) ≤ (k : ℚ) := by exact_mod_cast h1
  have hkhi : ((k : ℚ)) ≤ 2466 := by exact_mod_cast h2
  have hin : (65.9 : ℚ) ≤ 3 * (k : ℚ) / 100 ∧ (3 : ℚ) * k / 100 ≤ 74 := by
    constructor <;> [nlinarith; nlinarith]
  rw [normalizeFreqNum, if_pos hin]
  rw [normalizeFreqBand]
  have harg : (3 : ℚ) * k / 100 * 1000 / 30 = (k : ℚ) := by ring
  simp only [harg, jsRound_intCast]
  have hout : (k : ℚ) * 30 / 1000 = 3 * (k : ℚ) / 100 := by ring
  rw [hout]
  rw [if_neg ?_]
  · rw [toFixed3_grid (30 * k) _ (by push_cast; ring)]
  · push_neg
    constructor <;> nlinarith

/-- Normalizing a band-2 grid point other than 74.0 returns it unchanged. -/
theorem normalizeFreqNum_fix_band2 (k : ℤ) (h1 : 741 ≤ k) (h2 : k ≤ 1080) :
    normalizeFreqNum ((k : ℚ) / 10) = some ((k : ℚ) / 10) := by
  have hklo : (741 : ℚ) ≤ (k : ℚ) := by exact_mod_cast h1
  have hkhi : ((k : ℚ)) ≤ 1080 := by exact_mod_cast h2
  have hnot1 : ¬((65.9 : ℚ) ≤ (k : ℚ) / 10 ∧ (k : ℚ) / 10 ≤ 74) := by
    push_neg
    intro _
    nlinarith
  have hin : (74 : ℚ) < (k : ℚ) / 10 ∧ (k : ℚ) / 10 ≤ 108 := by
    constructor <;> nlinarith
  rw [normalizeFreqNum, if_neg hnot1, if_pos hin]
  rw [normalizeFreqBand]
  have harg : (k : ℚ) / 10 * 1000 / 100 = (k : ℚ) := by ring
  simp only [harg, jsRound_intCast]
  have hout : (k : ℚ) * 100 / 1000 = (k : ℚ) / 10 := by ring
  rw [hout]
  rw [if_neg ?_]
  · rw [toFixed3_grid (100 * k) _ (by push_cast; ring)]
  · push_neg
    constructor <;> nlinarith

theorem normalizeFreqNum_zero : normalizeFreqNum 0 = none := by
  norm_num [normalizeFreqNum]

/-- Composite: any `some` result of `normalizeFreqNum` other than 74.0 is a
fixed point of `normalizeFreqNum`. -/
theorem normalizeFreqNum_fixpoint {n v : ℚ} (h : normalizeFreqNum n = some v)
    (hv : v ≠ 74) : normalizeFreqNum v = some v := by
  unfold normalizeFreqNum at h
  split at h
  · obtain ⟨k, hk, h1, h2⟩ := band1_shape h
    subst hk
    exact normalizeFreqNum_fix_band1 k h1 h2
  · split at h
    · obtain ⟨k, hk, h1, h2⟩ := band2_shape h
      subst hk
      have hne : k ≠ 740 := by
        intro hk740
        apply hv
        rw [hk740]
        norm_num
      exact normalizeFreqNum_fix_band2 k (by omega) h2
    · split at h
      · obtain ⟨k, hk, h1, h2⟩ := band2_shape h
        subst hk
        have hne : k ≠ 740 := by
          intro hk740
          apply hv
          rw [hk740]
          norm_num
        exact normalizeFreqNum_fix_band2 k (by omega) h2
      · exact absurd h (by simp)

end V3

end SWRDS

namespace SWRDS

/-- C8 (amended): `normalizeFreq` is idempotent on every input except those
normalizing to exactly 74.0 MHz (a second application then yields `null`,
because 74.0 belongs to the narrow 30 kHz band, whose nearest grid point
74.01 falls outside the band bound); and every value outside both band
grids (below 65.9 MHz or above 108.0 MHz) normalizes to `null`. -/
theorem C8_normalizeFreq_idempotent_amended :
    (∀ f : Option ℚ, V3.normalizeFreq f ≠ some 74 →
      V3.normalizeFreq (V3.normalizeFreq f) = V3.normalizeFreq f) ∧
    (∀ q : ℚ, q < 65.9 ∨ 108 < q → V3.normalizeFreq (some q) = none) := by
  constructor
  · intro f hne
    match hf : V3.normalizeFreq f with
    | none => simp [V3.normalizeFreq, V3.normalizeFreqNum_zero]
    | some v =>
      have hv : v ≠ 74 := by
        intro h
        exact hne (by rw [hf, h])
      have hcore : V3.normalizeFreqNum v = some v := by
        match f with
        | some n =>
          exact V3.normalizeFreqNum_fixpoint (by simpa [V3.normalizeFreq] using hf) hv
        | none =>
          rw [V3.normalizeFreq, V3.normalizeFreqNum_zero] at hf
          exact absurd hf (by simp)
      simpa [V3.normalizeFreq] using hcore
  · intro q hq
    rw [V3.normalizeFreq, V3.normalizeFreqNum]
    rcases hq with h | h
    · rw [if_neg (by push_neg; intro h1; linarith),
        if_neg (by push_neg; intro h1; linarith),
        if_neg (by intro h1; rw [h1] at h; norm_num at h)]
    · rw [if_neg (by push_neg; intro h1; linarith),
        if_neg (by push_neg; intro h1; linarith),
        if_neg (by intro h1; rw [h1] at h; norm_num at h)]

/-- C8 witness: the amended idempotence applies at 101.17 (which snaps to
101.2) and the out-of-band half applies at 110.0. -/
theorem C8_normalizeFreq_witness :
    V3.normalizeFreq (some (101.17 : ℚ)) ≠ some 74 ∧
    V3.normalizeFreq (V3.normalizeFreq (some (101.17 : ℚ))) =
      V3.normalizeFreq (some (101.17 : ℚ)) ∧
    V3.normalizeFreq (some (110 : ℚ)) = none := by
  have h1 : V3.normalizeFreq (some (101.17 : ℚ)) = some (101.2 : ℚ) := by
    norm_num [V3.normalizeFreq, V3.normalizeFreqNum, V3.normalizeFreqBand,
      toFixed3, jsRound]
  refine ⟨by rw [h1]; norm_num, ?_, ?_⟩
  · exact C8_normalizeFreq_idempotent_amended.1 (some (101.17 : ℚ))
      (by rw [h1]; norm_num)
  · exact C8_normalizeFreq_idempotent_amended.2 110 (by norm_num)

/-- C8 counterexample: `normalizeFreq` is not idempotent as claimed.  The
value 74.04 MHz snaps to the main-band channel 74.0, but re-normalizing
74.0 hits the narrow band (whose upper bound is inclusive at 74.0), snaps
to 74.01, fails the band bound and yields `null`. -/
theorem C8_normalizeFreq_counterexample :
    V3.normalizeFreq (some (74.04 : ℚ)) = some 74 ∧
    V3.normalizeFreq (V3.normalizeFreq (some (74.04 : ℚ))) = none := by
  have h1 : V3.normalizeFreq (some (74.04 : ℚ)) = some 74 := by
    norm_num [V3.normalizeFreq, V3.normalizeFreqNum, V3.normalizeFreqBand,
      toFixed3, jsRound]
  refine ⟨h1, ?_⟩
  rw [h1]
  norm_num [V3.normalizeFreq, V3.normalizeFreqNum, V3.normalizeFreqBand,
    toFixed3, jsRound]

end SWRDS

namespace SWRDS

namespace V3

theorem mkLocal_ne_nil (f : JStr) : mkLocal f ≠ [] := by
  simp [mkLocal, str]

theorem makeUrl_ne_nil (itu f : JStr) : makeUrl itu f ≠ [] := by
  simp [makeUrl, str]

theorem defaultLogo_ne_nil : defaultLogo ≠ [] := by
  simp [defaultLogo, str]

theorem tryFindLocal_ne_nil {env : LogoEnv} {search : JStr} {strongly : Bool}
    {u : JStr} (h : tryFindLocal env search strongly = some u) : u ≠ [] := by
  unfold tryFindLocal at h
  split at h
  · exact absurd h (by simp)
  · split at h
    · rename_i p _
      exact (Option.some.inj h) ▸ mkLocal_ne_nil p.2
    · split at h
      · rcases Option.map_eq_some'.mp h with ⟨p, _, hp⟩
        exact hp ▸ mkLocal_ne_nil p.2
      · exact absurd h (by simp)

theorem piTier_ne_nil {files : List JStr} {itu sName : JStr}
    {piNorm : Option JStr} {u : JStr}
    (h : piTier files itu sName piNorm = some u) : u ≠ [] := by
  unfold piTier at h
  split at h
  · split at h
    · rename_i f _
      exact (Option.some.inj h) ▸ makeUrl_ne_nil itu f
    · rcases Option.map_eq_some'.mp h with ⟨f, _, hf⟩
      exact hf ▸ makeUrl_ne_nil itu f
  · exact absurd h (by simp)

theorem nameTiers_ne_nil (files : List JStr) (itu : JStr)
    (stationNorms : List JStr) : nameTiers files itu stationNorms ≠ [] := by
  unfold nameTiers
  split
  · exact makeUrl_ne_nil _ _
  · split
    · exact makeUrl_ne_nil _ _
    · split
      · exact makeUrl_ne_nil _ _
      · exact defaultLogo_ne_nil

theorem localTier_ne_nil {env : LogoEnv} {q : LogoQuery} {target u : JStr}
    (h : localTier env q target = some u) : u ≠ [] := by
  unfold localTier at h
  split at h
  · rename_i heq
    exact tryFindLocal_ne_nil (h ▸ heq)
  · split at h
    · exact tryFindLocal_ne_nil h
    · exact absurd h (by simp)

theorem noobishTier_ne_nil (env : LogoEnv) (q : LogoQuery) (itu : JStr) :
    noobishTier env q itu ≠ [] := by
  unfold noobishTier
  split
  · exact defaultLogo_ne_nil
  · split
    · rename_i u heq
      exact piTier_ne_nil heq
    · exact nameTiers_ne_nil _ _ _

end V3

end SWRDS

namespace SWRDS

/-- C5 (amended): `findLogoUrl` never returns an empty string through the
local-catalog, remote-catalog or default tiers; on the id-catalog tier it
returns the mapped record's `logoUrl` field as-is, so the overall result is
a non-empty string whenever every id-catalog record that the candidate's id
can select carries a non-empty `logoUrl`. -/
theorem C5_findLogoUrl_amended (env : V3.LogoEnv) (q : V3.LogoQuery)
    (h : ∀ r, assoc env.fmlistLogos (q.idStation.getD (str "null")) = some r →
        ∃ u, r.logoUrl = some u ∧ u ≠ []) :
    ∃ u, V3.findLogoUrl env q = some u ∧ u ≠ [] := by
  rw [V3.findLogoUrl]
  split
  · rename_i hguard
    have hs : (assoc env.fmlistLogos (q.idStation.getD (str "null"))).isSome :=
      (Bool.and_eq_true _ _ ▸ hguard).2
    rcases Option.isSome_iff_exists.mp hs with ⟨r, hr⟩
    rcases h r hr with ⟨u, hu, hne⟩
    exact ⟨u, by rw [hr]; simpa using hu, hne⟩
  · refine ⟨_, rfl, ?_⟩
    match hl : V3.localTier env q (V3.normalizeName (q.station.getD [])) with
    | some u => simpa [hl] using V3.localTier_ne_nil hl
    | none => simpa [hl] using V3.noobishTier_ne_nil env q _

/-- C5 witness: with no catalogs loaded, the resolver returns the fixed
default logo reference, which is non-empty. -/
theorem C5_findLogoUrl_witness :
    ∃ u,
      V3.findLogoUrl ⟨[], [], fun _ => []⟩
          ⟨none, none, none, false, none⟩ = some u ∧ u ≠ [] :=
  C5_findLogoUrl_amended ⟨[], [], fun _ => []⟩ ⟨none, none, none, false, none⟩
    (fun r hr => by simp [assoc] at hr)

/-- C5 counterexample: the id-catalog tier does not validate the mapped
record; if the catalog maps the candidate's `idStation` to a record with no
`logoUrl`, `findLogoUrl` returns `undefined` instead of a non-empty string
(in particular it does not fall back to the default logo). -/
theorem C5_findLogoUrl_counterexample :
    V3.findLogoUrl ⟨[(str "42", ⟨none⟩)], [], fun _ => []⟩
        ⟨none, none, none, true, some (str "42")⟩ = none := by
  simp [V3.findLogoUrl, assoc, str]

end SWRDS

namespace SWRDS

namespace V3

theorem distLE_trans : ∀ a b c : CandRec,
    distLE a b = true → distLE b c = true → distLE a c = true := by
  intro a b c hab hbc
  simp only [distLE, decide_eq_true_eq] at *
  exact le_trans hab hbc

theorem distLE_total : ∀ a b : CandRec, (distLE a b || distLE b a) = true := by
  intro a b
  simp only [distLE, Bool.or_eq_true, decide_eq_true_eq]
  exact le_total _ _

/-- The embedded comparator sort produces a list ascending by distance. -/
theorem sortByDistance_pairwise (l : List CandRec) :
    (sortByDistance l).Pairwise (fun a b => a.distance ≤ b.distance) := by
  have h := List.sorted_mergeSort distLE_trans distLE_total l
  exact h.imp (fun hab => by simpa [distLE] using hab)

/-- Stability of the embedded sort: the candidates at any fixed distance
appear in the same order as in the input list. -/
theorem sortByDistance_stable (l : List CandRec) (d : ℚ) :
    (sortByDistance l).filter (fun r => r.distance == d) =
      l.filter (fun r => r.distance == d) := by
  have hpair : (l.filter (fun r => r.distance == d)).Pairwise
      (fun a b => distLE a b = true) := by
    apply List.pairwise_of_forall_mem_list
    intro a ha b hb
    have hda : a.distance = d := by
      simpa using List.of_mem_filter ha
    have hdb : b.distance = d := by
      simpa using List.of_mem_filter hb
    simp [distLE, hda, hdb]
  have hsub : List.Sublist (l.filter (fun r => r.distance == d))
      (List.mergeSort l distLE) :=
    List.sublist_mergeSort distLE_trans distLE_total hpair (List.filter_sublist l)
  have hsub2 : List.Sublist (l.filter (fun r => r.distance == d))
      ((List.mergeSort l distLE).filter (fun r => r.distance == d)) := by
    have h2 := List.Sublist.filter (fun r => r.distance == d) hsub
    simpa [List.filter_filter] using h2
  have hperm : List.Perm
      ((List.mergeSort l distLE).filter (fun r => r.distance == d))
      (l.filter (fun r => r.distance == d)) :=
    (List.mergeSort_perm l distLE).filter _
  exact ((hsub2.eq_of_length hperm.length_eq.symm)).symm

theorem assignLogos_length (env : LogoEnv) (l : List CandRec) :
    (assignLogos env l).length = l.length := by
  simp [assignLogos]

theorem fillLogos_length (env : LogoEnv) (l : List CandRec) :
    (fillLogos env l).length = l.length := by
  simp [fillLogos]

theorem sortByDistance_length (l : List CandRec) :
    (sortByDistance l).length = l.length := by
  simp [sortByDistance]

/-- Attaching logos neither reorders candidates nor changes distances, so
it commutes with selecting the candidates at one distance. -/
theorem assignLogos_filter (env : LogoEnv) (l : List CandRec) (d : ℚ) :
    (assignLogos env l).filter (fun r => r.distance == d) =
      assignLogos env (l.filter (fun r => r.distance == d)) := by
  unfold assignLogos
  rw [List.filter_map]
  rfl

theorem fillLogos_filter (env : LogoEnv) (l : List CandRec) (d : ℚ) :
    (fillLogos env l).filter (fun r => r.distance == d) =
      fillLogos env (l.filter (fun r => r.distance == d)) := by
  unfold fillLogos
  rw [List.filter_map]
  congr 1
  apply List.filter_congr
  intro r _
  by_cases h : truthyStr r.logoUrl <;> simp [Function.comp, h]

theorem assignLogos_pairwise (env : LogoEnv) (l : List CandRec)
    (h : l.Pairwise (fun a b => a.distance ≤ b.distance)) :
    (assignLogos env l).Pairwise (fun a b => a.distance ≤ b.distance) := by
  unfold assignLogos
  exact List.pairwise_map.mpr h

theorem fillLogos_pairwise (env : LogoEnv) (l : List CandRec)
    (h : l.Pairwise (fun a b => a.distance ≤ b.distance)) :
    (fillLogos env l).Pairwise (fun a b => a.distance ≤ b.distance) := by
  unfold fillLogos
  apply List.pairwise_map.mpr
  apply h.imp
  intro a b hab
  by_cases ha : truthyStr a.logoUrl <;> by_cases hb : truthyStr b.logoUrl <;>
    simpa [ha, hb] using hab

theorem searchInMaps_eq_used (env : GeoEnv) (cfg : Cfg) (freq : Option ℚ)
    (pi : Option JStr) :
    searchInMaps env cfg freq pi =
      assignLogos env.logoEnv (sortByDistance (mapsUsed env cfg freq pi)) := by
  unfold searchInMaps mapsUsed
  split
  · simp [assignLogos, sortByDistance]
  · split
    · rename_i hempty
      rw [if_pos ?_]
      rw [List.isEmpty_iff_length_eq_zero, assignLogos_length,
        sortByDistance_length] at hempty
      simpa [List.isEmpty_iff_length_eq_zero] using hempty
    · rename_i hne
      rw [if_neg ?_]
      rw [List.isEmpty_iff_length_eq_zero, assignLogos_length,
        sortByDistance_length] at hne
      simpa [List.isEmpty_iff_length_eq_zero] using hne

theorem searchInMyStations_eq_used (env : GeoEnv) (cfg : Cfg)
    (freq : Option ℚ) (pi : Option JStr) (ant : Option ℚ) :
    searchInMyStations env cfg freq pi ant =
      fillLogos env.logoEnv (sortByDistance (myUsed cfg freq pi ant)) := by
  unfold searchInMyStations myUsed
  split
  · simp [fillLogos, sortByDistance]
  · rfl

end V3

end SWRDS

namespace SWRDS

/-- C7: both search paths return candidate lists ascending by distance,
and candidates at equal distance keep the relative order of the dataset /
user list they were drawn from (the sort is stable; attaching logos
preserves order and distances). -/
theorem C7_results_sorted_stable (env : V3.GeoEnv) (cfg : V3.Cfg)
    (freq : Option ℚ) (pi : Option JStr) (ant : Option ℚ) (d : ℚ) :
    (V3.searchInMaps env cfg freq pi).Pairwise
      (fun a b => a.distance ≤ b.distance) ∧
    (V3.searchInMyStations env cfg freq pi ant).Pairwise
      (fun a b => a.distance ≤ b.distance) ∧
    (V3.searchInMaps env cfg freq pi).filter (fun r => r.distance == d) =
      V3.assignLogos env.logoEnv
        ((V3.mapsUsed env cfg freq pi).filter (fun r => r.distance == d)) ∧
    (V3.searchInMyStations env cfg freq pi ant).filter
        (fun r => r.distance == d) =
      V3.fillLogos env.logoEnv
        ((V3.myUsed cfg freq pi ant).filter (fun r => r.distance == d)) := by
  refine ⟨?_, ?_, ?_, ?_⟩
  · rw [V3.searchInMaps_eq_used]
    exact V3.assignLogos_pairwise _ _ (V3.sortByDistance_pairwise _)
  · rw [V3.searchInMyStations_eq_used]
    exact V3.fillLogos_pairwise _ _ (V3.sortByDistance_pairwise _)
  · rw [V3.searchInMaps_eq_used, V3.assignLogos_filter,
      V3.sortByDistance_stable]
  · rw [V3.searchInMyStations_eq_used, V3.fillLogos_filter,
      V3.sortByDistance_stable]

end SWRDS

namespace SWRDS

namespace V3

/-- The fallback dataset's `st.pi || 'noPI'` twist is invisible to the
filter: `noPI` has no hexadecimal characters, so it normalizes to the same
`null` an absent or empty PI normalizes to. -/
theorem normalizePi_piOrNoPI (x : Option JStr) :
    normalizePi (piOrNoPI x) = normalizePi x := by
  match x with
  | none => decide
  | some l =>
    match l with
    | [] => decide
    | c :: t => simp [piOrNoPI, truthyStr]

/-- The two dataset scans apply extensionally identical per-station
filters. -/
theorem stationKeep_useNoPI (f : Option ℚ) (p : Option JStr) (st : Station) :
    stationKeep f p true st = stationKeep f p false st := by
  simp [stationKeep, normalizePi_piOrNoPI]

theorem collectFrom_useNoPI (env : GeoEnv) (cfg : Cfg) (locs : List Loc)
    (f : Option ℚ) (p : Option JStr) :
    collectFrom env cfg locs f p true = collectFrom env cfg locs f p false := by
  unfold collectFrom
  congr 1
  funext loc
  split
  · rfl
  · congr 1
    apply List.filter_congr
    intro st _
    exact stationKeep_useNoPI f p st

end V3

end SWRDS

namespace SWRDS

/-- C6: when the primary dataset scan yields no candidate, `searchInMaps`
returns the result of the extensionally identical filter applied to the
fallback dataset; otherwise it returns the primary result; in either case
the returned list is built from exactly one of the two scans, never a
merge. -/
theorem C6_fallback_dataset (env : V3.GeoEnv) (cfg : V3.Cfg)
    (freq : Option ℚ) (pi : Option JStr)
    (h : ¬((V3.normalizeFreq freq).isNone ∧ (V3.normalizePi pi).isNone)) :
    (V3.mapsPrim env cfg freq pi ≠ [] →
      V3.searchInMaps env cfg freq pi =
        V3.assignLogos env.logoEnv
          (V3.sortByDistance (V3.mapsPrim env cfg freq pi))) ∧
    (V3.mapsPrim env cfg freq pi = [] →
      V3.searchInMaps env cfg freq pi =
        V3.assignLogos env.logoEnv
          (V3.sortByDistance (V3.mapsSec env cfg freq pi))) ∧
    (∀ locs,
      V3.collectFrom env cfg locs (V3.normalizeFreq freq) (V3.normalizePi pi)
          true =
        V3.collectFrom env cfg locs (V3.normalizeFreq freq)
          (V3.normalizePi pi) false) ∧
    (V3.searchInMaps env cfg freq pi =
        V3.assignLogos env.logoEnv
          (V3.sortByDistance (V3.mapsPrim env cfg freq pi)) ∨
      V3.searchInMaps env cfg freq pi =
        V3.assignLogos env.logoEnv
          (V3.sortByDistance (V3.mapsSec env cfg freq pi))) := by
  have hguard : ((V3.normalizeFreq freq).isNone &&
      (V3.normalizePi pi).isNone) = false := by
    cases hval : ((V3.normalizeFreq freq).isNone &&
        (V3.normalizePi pi).isNone) with
    | false => rfl
    | true => exact absurd ((Bool.and_eq_true _ _).mp hval) h
  have hused := V3.searchInMaps_eq_used env cfg freq pi
  rw [V3.mapsUsed, if_neg (by simp [hguard])] at hused
  constructor
  · intro hne
    rw [hused, if_neg (by simpa using hne)]
  constructor
  · intro heq
    rw [hused, if_pos (by simpa using heq)]
  constructor
  · intro locs
    exact V3.collectFrom_useNoPI env cfg locs _ _
  · by_cases hp : V3.mapsPrim env cfg freq pi = []
    · right
      rw [hused, if_pos (by simpa using hp)]
    · left
      rw [hused, if_neg (by simpa using hp)]

/-- C6 witness: a 101.1 MHz query passes the guard; with an empty primary
dataset the fallback result is returned. -/
theorem C6_fallback_dataset_witness :
    V3.searchInMaps
        ⟨0, 0, fun _ _ _ _ => 0, fun _ _ _ _ => 0, [],
          [⟨0, 0, none, none, []⟩], ⟨[], [], fun _ => []⟩⟩
        ⟨1, [], 10, none, 3, 500⟩ (some (101.1 : ℚ)) none =
      V3.assignLogos ⟨[], [], fun _ => []⟩
        (V3.sortByDistance
          (V3.mapsSec
            ⟨0, 0, fun _ _ _ _ => 0, fun _ _ _ _ => 0, [],
              [⟨0, 0, none, none, []⟩], ⟨[], [], fun _ => []⟩⟩
            ⟨1, [], 10, none, 3, 500⟩ (some (101.1 : ℚ)) none)) := by
  have hnf : V3.normalizeFreq (some (101.1 : ℚ)) = some (101.1 : ℚ) := by
    norm_num [V3.normalizeFreq, V3.normalizeFreqNum, V3.normalizeFreqBand,
      toFixed3, jsRound]
  refine (C6_fallback_dataset _ _ _ _ ?_).2.1 ?_
  · rw [hnf]
    simp
  · simp [V3.mapsPrim, V3.collectFrom]

/-- C10: a query whose frequency does not normalize to a legal channel and
whose identifier normalizes to absent returns the empty candidate list in
every mode, regardless of the datasets and the user list (the quantified
environment carries both datasets and `myStantions`, so no record of
either can reach the result). -/
theorem C10_null_query_returns_empty (env : V3.GeoEnv) (cfg : V3.Cfg)
    (freq : Option ℚ) (pi : Option JStr) (ant : Option ℚ)
    (h1 : V3.normalizeFreq freq = none) (h2 : V3.normalizePi pi = none) :
    V3.searchInMaps env cfg freq pi = [] ∧
    V3.searchInMyStations env cfg freq pi ant = [] ∧
    V3.searchStations env cfg freq pi ant = [] := by
  have hm : V3.searchInMaps env cfg freq pi = [] := by
    rw [V3.searchInMaps, if_pos (by simp [h1, h2])]
  have hs : V3.searchInMyStations env cfg freq pi ant = [] := by
    rw [V3.searchInMyStations, if_pos (by simp [h1, h2])]
  refine ⟨hm, hs, ?_⟩
  rw [V3.searchStations]
  split
  · exact hs
  · split
    · rw [hs]
      simp [hm]
    · exact hm

/-- C10 witness: 50.0 MHz lies outside both band grids and an absent PI
normalizes to absent, so every mode returns the empty list even with a
populated dataset. -/
theorem C10_null_query_returns_empty_witness :
    V3.searchStations
        ⟨0, 0, fun _ _ _ _ => 0, fun _ _ _ _ => 0,
          [⟨0, 0, none, none, [⟨some 101.1, none, none, none, none,
            false, none⟩]⟩], [], ⟨[], [], fun _ => []⟩⟩
        ⟨1, [], 10, none, 3, 500⟩ (some (50 : ℚ)) none none = [] := by
  refine (C10_null_query_returns_empty _ _ _ _ _ ?_ ?_).2.2
  · norm_num [V3.normalizeFreq, V3.normalizeFreqNum]
  · decide

end SWRDS

namespace SWRDS

namespace V3

@[simp] theorem stopFindBroadcast_gen (m : MonitorState) :
    (stopFindBroadcast m).gen = m.gen + 1 := rfl

@[simp] theorem startFindBroadcastSt_gen (m : MonitorState) (f : Option ℚ)
    (p : Option JStr) (a : Option ℚ) :
    (startFindBroadcastSt m f p a).gen = m.gen := rfl

@[simp] theorem windowInit_monitor (s : TextState) (now : Nat) :
    (windowInit s now).monitor = s.monitor := by
  unfold windowInit
  split <;> rfl

@[simp] theorem accumulate_monitor (s : TextState) (sig : ℚ) :
    (accumulate s sig).monitor = s.monitor := rfl

@[simp] theorem fixState_monitor_gen (s : TextState) (f : Option ℚ)
    (p : Option JStr) (a : ℚ) : (fixState s f p a).monitor.gen =
      s.monitor.gen := rfl

theorem stageFreqSt_gen (s : TextState) (f : Option ℚ) :
    (stageFreqSt s f).monitor.gen =
      if f ≠ s.lastFrequency then s.monitor.gen + 1 else s.monitor.gen := by
  unfold stageFreqSt
  split <;> simp_all [resetMonitorState]

theorem stageAntSt_gen (s1 : TextState) (a : ℚ) :
    (stageAntSt s1 a).monitor.gen =
      if some a ≠ s1.monitor.pendingAnt then s1.monitor.gen + 1
      else s1.monitor.gen := by
  unfold stageAntSt
  split <;> simp_all

/-- The handler body never decreases the generation counter past the
frequency/antenna cancellation stages. -/
theorem onTextBody_gen_ge (cfg : Cfg) (s : TextState) (e : TextEvent)
    (now : Nat) :
    (stageAntSt (stageFreqSt s e.freq) (e.ant.getD 0)).monitor.gen ≤
      ((onTextBody cfg s e now).1).monitor.gen := by
  simp only [onTextBody]
  split_ifs <;> simp [startFindBroadcastSt, startMon, fixState]

end V3

end SWRDS

namespace SWRDS

/-- C1: every cancellation strictly increases the generation counter —
`stopFindBroadcast` bumps it by one, and a handler step that detects a
frequency change or an antenna change leaves the counter strictly larger —
and an asynchronous search whose captured generation differs from the
current one when it resolves produces no broadcast message and no state
change. -/
theorem C1_generation_cancellation :
    (∀ m : V3.MonitorState, (V3.stopFindBroadcast m).gen = m.gen + 1) ∧
    (∀ (cfg : V3.Cfg) (s : V3.TextState) (e : V3.TextEvent) (now : Nat),
      V3.hasTx e = false →
      (e.freq ≠ s.lastFrequency ∨
        some (e.ant.getD 0) ≠ (V3.stageFreqSt s e.freq).monitor.pendingAnt) →
      s.monitor.gen < ((V3.handleTextFrame cfg s e now).1).monitor.gen) ∧
    (∀ (m : V3.MonitorState) (myGen : Nat) (freq : Option ℚ)
        (pi : Option JStr) (list : List V3.CandRec) (now : Nat),
      myGen ≠ m.gen →
      V3.broadcastResolve m myGen freq pi list now = (m, none)) := by
  refine ⟨fun m => rfl, ?_, ?_⟩
  · intro cfg s e now htx hcancel
    have hframe : V3.handleTextFrame cfg s e now = V3.onTextBody cfg s e now := by
      simp [V3.handleTextFrame, V3.onTextMessage, htx]
    rw [hframe]
    have hge := V3.onTextBody_gen_ge cfg s e now
    have h1 := V3.stageFreqSt_gen s e.freq
    have h2 := V3.stageAntSt_gen (V3.stageFreqSt s e.freq) (e.ant.getD 0)
    rcases hcancel with hf | ha
    · rw [if_pos hf] at h1
      split_ifs at h2 <;> omega
    · rw [if_pos ha] at h2
      split_ifs at h1 <;> omega
  · intro m myGen freq pi list now hne
    unfold V3.broadcastResolve
    split_ifs <;> simp_all

/-- C1 witness: a concrete antenna change (pending antenna 0, event
antenna 1) strictly increases the generation, and a search dispatched at
generation 0 resolving after the bump produces nothing. -/
theorem C1_generation_cancellation_witness :
    (⟨none, none, some 0, false, false, none, none, none, none, 0,
        0⟩ : V3.MonitorState).gen <
      ((V3.handleTextFrame ⟨1, [], 10, none, 3, 500⟩
        ⟨some (101.1 : ℚ), false, 0, 0, 0, 0,
          ⟨none, none, some 0, false, false, none, none, none, none, 0, 0⟩⟩
        ⟨some (101.1 : ℚ), some 50, none, none, some 1, none⟩ 1000).1).monitor.gen ∧
    V3.broadcastResolve
        ⟨none, none, some 0, false, true, some (101.1 : ℚ), none, some 1,
          some 3000, 0, 1⟩ 0 (some (101.1 : ℚ)) none [] 2000 =
      (⟨none, none, some 0, false, true, some (101.1 : ℚ), none, some 1,
        some 3000, 0, 1⟩, none) := by
  constructor
  · exact C1_generation_cancellation.2.1 ⟨1, [], 10, none, 3, 500⟩
      ⟨some (101.1 : ℚ), false, 0, 0, 0, 0,
        ⟨none, none, some 0, false, false, none, none, none, none, 0, 0⟩⟩
      ⟨some (101.1 : ℚ), some 50, none, none, some 1, none⟩ 1000 (by decide)
      (Or.inr (by norm_num [V3.stageFreqSt]))
  · exact C1_generation_cancellation.2.2 _ 0 _ none [] 2000 (by decide)

/-- C4 (code bug): an event carrying authoritative `txInfo` and a usable
PI takes the TX short-circuit, which reads `frequency` before its `const`
declaration in the same function scope — a temporal-dead-zone
`ReferenceError`.  The `/text` wrapper catches and drops it, so for every
monitor state the event emits nothing and leaves the state unchanged,
instead of emitting the throttled server-announced candidate. -/
theorem C4_txinfo_short_circuit_is_dead :
    ∀ (cfg : V3.Cfg) (s : V3.TextState) (now : Nat),
      V3.hasTx ⟨some (101.1 : ℚ), some 50, some (str "ABCD"),
          some (str "TEST"), some 0, some (str "R1")⟩ = true ∧
      V3.onTextMessage cfg s
          ⟨some (101.1 : ℚ), some 50, some (str "ABCD"), some (str "TEST"),
            some 0, some (str "R1")⟩ now =
        Except.error V3.JsErr.referenceTDZ ∧
      V3.handleTextFrame cfg s
          ⟨some (101.1 : ℚ), some 50, some (str "ABCD"), some (str "TEST"),
            some 0, some (str "R1")⟩ now = (s, []) := by
  intro cfg s now
  have htx : V3.hasTx ⟨some (101.1 : ℚ), some 50, some (str "ABCD"),
      some (str "TEST"), some 0, some (str "R1")⟩ = true := by
    decide
  refine ⟨htx, ?_, ?_⟩
  · rw [V3.onTextMessage, if_pos htx]
  · rw [V3.handleTextFrame, V3.onTextMessage, if_pos htx]

/-- C3 counterexample: in the current handler a pre-fixation sample whose
calibrated level (−11.25 dB) lies strictly below threshold − 3 (= 7) is
not dropped: it is accumulated into the signal window (count becomes 1 and
the window sum becomes the sample), and no stop/reset of the monitor
happens (the generation counter stays 0). -/
theorem C3_tolerance_counterexample :
    ((V3.handleTextFrame ⟨1, [], 10, none, 3, 500⟩
        ⟨some (101.1 : ℚ), false, 0, 0, 0, 0,
          ⟨none, none, some 0, false, false, none, none, none, none, 0, 0⟩⟩
        ⟨some (101.1 : ℚ), some 0, none, none, some 0, none⟩
        1000).1).signalCount = 1 ∧
    ((V3.handleTextFrame ⟨1, [], 10, none, 3, 500⟩
        ⟨some (101.1 : ℚ), false, 0, 0, 0, 0,
          ⟨none, none, some 0, false, false, none, none, none, none, 0, 0⟩⟩
        ⟨some (101.1 : ℚ), some 0, none, none, some 0, none⟩
        1000).1).signalSum = -45/4 ∧
    (-45/4 : ℚ) <
      V3.getThresholdForFrequency (some (101.1 : ℚ))
        ⟨1, [], 10, none, 3, 500⟩ - 3 ∧
    ((V3.handleTextFrame ⟨1, [], 10, none, 3, 500⟩
        ⟨some (101.1 : ℚ), false, 0, 0, 0, 0,
          ⟨none, none, some 0, false, false, none, none, none, none, 0, 0⟩⟩
        ⟨some (101.1 : ℚ), some 0, none, none, some 0, none⟩
        1000).1).monitor.gen = 0 := by
  have hres : V3.handleTextFrame ⟨1, [], 10, none, 3, 500⟩
      ⟨some (101.1 : ℚ), false, 0, 0, 0, 0,
        ⟨none, none, some 0, false, false, none, none, none, none, 0, 0⟩⟩
      ⟨some (101.1 : ℚ), some 0, none, none, some 0, none⟩ 1000 =
      (⟨some (101.1 : ℚ), false, -45/4, 1, 1000, 0,
        ⟨none, none, some 0, false, false, none, none, none, none, 0, 0⟩⟩,
        []) := by
    norm_num [V3.handleTextFrame, V3.onTextMessage, V3.hasTx, V3.computedPi,
      V3.onTextBody, V3.stageFreqSt, V3.stageFreqOut, V3.stageAntSt,
      V3.stageAntOut, V3.windowInit, V3.accumulate, truthyNum, truthyStr,
      V3.stableTimeMsOf]
  rw [hres]
  refine ⟨rfl, rfl, ?_, rfl⟩
  norm_num [V3.getThresholdForFrequency]

/-- C3 (amended): the per-sample tolerance drop exists only in the legacy
handler: there, a sample with calibrated level strictly below
threshold − 3 arriving while not fixed stops broadcasting and the handler
returns with nothing accumulated and nothing emitted (that handler has no
signal window at all).  The current handler accumulates every pre-fixation
sample into the window regardless of its level: on an unchanged identity
with an idle accumulator, any sample — however weak — opens the window and
is counted into it. -/
theorem C3_tolerance_amended :
    (∀ (cfg : V3.Cfg) (s : V2.St) (e : V3.TextEvent) (now : Nat),
      V3.hasTx e = false → truthyNum e.freq = true →
      e.freq = s.lastFrequency → s.signalFixed = false →
      e.sig.getD 0 - 45/4 < V3.getThresholdForFrequency e.freq cfg - 3 →
      V2.onTextMessage cfg s e now =
        ({ s with monitor := V2.stopFindBroadcast s.monitor }, [])) ∧
    (∀ (cfg : V3.Cfg) (s : V3.TextState) (e : V3.TextEvent) (now : Nat),
      V3.hasTx e = false → truthyNum e.freq = true →
      e.freq = s.lastFrequency →
      some (e.ant.getD 0) = s.monitor.pendingAnt →
      s.signalFixed = false → s.signalWindowStart = 0 →
      (0 : ℚ) < V3.stableTimeMsOf cfg →
      ((V3.handleTextFrame cfg s e now).1).signalCount = 1 ∧
      ((V3.handleTextFrame cfg s e now).1).signalSum =
        e.sig.getD 0 - 45/4) := by
  constructor
  · intro cfg s e now htx hfreq hlast hsf hsig
    obtain ⟨lf, sf, th, mon⟩ := s
    simp only at hlast hsf
    subst hsf
    subst hlast
    have hnle : ¬(V3.getThresholdForFrequency e.freq cfg - 3 ≤
        e.sig.getD 0 - 45/4) := not_le.mpr hsig
    have hnle2 : ¬(V3.getThresholdForFrequency e.freq cfg ≤
        e.sig.getD 0 - 45/4 + 3) := by
      intro hcon
      exact hnle (by linarith)
    obtain ⟨pf, ppi, pant, stt, act, af, api, antf, bt, lba⟩ := mon
    by_cases hfc : e.freq = pf
    · subst hfc
      simp [V2.onTextMessage, htx, hfreq, hnle2, hsig, V2.stopFindBroadcast]
    · simp [V2.onTextMessage, htx, hfreq, hnle2, hsig, hfc,
        V2.stopFindBroadcast]
  · intro cfg s e now htx hfreq hlast hant hsf hws hstable
    obtain ⟨lf, sf, ssum, scount, sws, th, mon⟩ := s
    simp only at hlast hant hsf hws
    subst hsf
    subst hws
    subst hlast
    have hframe : V3.handleTextFrame cfg
        ⟨e.freq, false, ssum, scount, 0, th, mon⟩ e now =
        V3.onTextBody cfg ⟨e.freq, false, ssum, scount, 0, th, mon⟩ e now := by
      simp [V3.handleTextFrame, V3.onTextMessage, htx]
    rw [hframe]
    simp [V3.onTextBody, V3.stageFreqSt, V3.stageAntSt, V3.windowInit,
      V3.accumulate, hant, hfreq, hstable, Nat.sub_self]

/-- C3 witness: a −11.25 dB calibrated sample against the default 10 dB
threshold is dropped with a broadcast stop by the legacy handler, and is
counted into the window by the current handler. -/
theorem C3_tolerance_amended_witness :
    V2.onTextMessage ⟨1, [], 10, none, 3, 500⟩
        ⟨some (101.1 : ℚ), false, 0,
          ⟨none, none, none, none, false, none, none, none, none, 0⟩⟩
        ⟨some (101.1 : ℚ), some 0, none, none, some 0, none⟩ 1000 =
      (⟨some (101.1 : ℚ), false, 0,
        ⟨none, none, none, none, false, none, none, none, none, 0⟩⟩, []) ∧
    ((V3.handleTextFrame ⟨1, [], 10, none, 3, 500⟩
        ⟨some (101.1 : ℚ), false, 0, 0, 0, 0,
          ⟨none, none, some 0, false, false, none, none, none, none, 0, 1⟩⟩
        ⟨some (101.1 : ℚ), some 0, none, none, some 0, none⟩
        2000).1).signalCount = 1 := by
  constructor
  · have h := C3_tolerance_amended.1 ⟨1, [], 10, none, 3, 500⟩
      ⟨some (101.1 : ℚ), false, 0,
        ⟨none, none, none, none, false, none, none, none, none, 0⟩⟩
      ⟨some (101.1 : ℚ), some 0, none, none, some 0, none⟩ 1000
      (by decide) (by norm_num [truthyNum]) rfl rfl
      (by norm_num [V3.getThresholdForFrequency])
    simpa [V2.stopFindBroadcast] using h
  · exact (C3_tolerance_amended.2 ⟨1, [], 10, none, 3, 500⟩
      ⟨some (101.1 : ℚ), false, 0, 0, 0, 0,
        ⟨none, none, some 0, false, false, none, none, none, none, 0, 1⟩⟩
      ⟨some (101.1 : ℚ), some 0, none, none, some 0, none⟩ 2000
      (by decide) (by norm_num [truthyNum]) rfl rfl rfl rfl
      (by norm_num [V3.stableTimeMsOf])).1

end SWRDS

namespace SWRDS

namespace V1

theorem hasKey_of_mem {m : ProcessedMap} {rid : JStr} {t : Nat}
    (h : (rid, t) ∈ m) : hasKey m rid = true := by
  simp only [hasKey, List.any_eq_true]
  exact ⟨(rid, t), h, by simp⟩

/-- While every event happens within the retention window of a recorded
request, the record survives and no further response carries its id. -/
theorem runEvents_retained {rid : JStr} {t0 : Nat} :
    ∀ (mid : List Event) (m : ProcessedMap), (rid, t0) ∈ m →
    (∀ ev ∈ mid, timeOf ev ≤ t0 + TTLms) →
    (rid, t0) ∈ (runEvents m mid).1 ∧
      responsesFor rid (runEvents m mid).2 = 0
  | [], m, hm, _ => ⟨hm, rfl⟩
  | ev :: rest, m, hm, htime => by
    have hev := htime ev (List.mem_cons_self ev rest)
    have hrest : ∀ e ∈ rest, timeOf e ≤ t0 + TTLms :=
      fun e he => htime e (List.mem_cons_of_mem ev he)
    match ev with
    | Event.gcTick t =>
      have hkeep : (rid, t0) ∈ gcProcessed m t := by
        simp only [gcProcessed, List.mem_filter]
        refine ⟨hm, ?_⟩
        simp only [timeOf] at hev
        simp only [Bool.not_eq_true']
        simp only [decide_eq_false_iff_not, not_lt]
        omega
      have ih := runEvents_retained rest (gcProcessed m t) hkeep hrest
      simpa [runEvents, step, responsesFor] using ih
    | Event.findReq req f t =>
      match req with
      | none =>
        have ih := runEvents_retained rest m hm hrest
        simpa [runEvents, step, stepFind, responsesFor] using ih
      | some r =>
        by_cases hemp : r.isEmpty
        · have ih := runEvents_retained rest m hm hrest
          simpa [runEvents, step, stepFind, hemp, responsesFor] using ih
        · by_cases hhas : hasKey m r
          · have ih := runEvents_retained rest m hm hrest
            simpa [runEvents, step, stepFind, hemp, hhas, responsesFor]
              using ih
          · have hne : ¬(r == rid) = true := by
              intro hb
              have : r = rid := by simpa using hb
              subst this
              exact hhas (hasKey_of_mem hm)
            have hmem : (rid, t0) ∈ setKey m r t := by
              simp only [setKey, hhas, if_false]
              exact List.mem_append_left _ hm
            have ih := runEvents_retained rest (setKey m r t) hmem hrest
            simp [runEvents, step, stepFind, hemp, hhas, responsesFor,
              hne] at ih ⊢
            exact ih

end V1

end SWRDS

namespace SWRDS

/-- C9: an answered `find` requestId is recorded with its timestamp; while
every later event (repeats of the id, other requests, GC ticks) happens
within the two-minute retention window, a repeat of the id is silently
ignored, so the id receives exactly one response over the whole trace; and
`gcProcessed` retains exactly the records at most two minutes old. -/
theorem C9_requestId_dedup (rid : JStr) (freq freq2 : Option ℚ)
    (t0 t1 : Nat) (mid : List V1.Event) (m0 : V1.ProcessedMap)
    (hrid : rid.isEmpty = false)
    (hfresh : V1.hasKey m0 rid = false)
    (htime : ∀ ev ∈ mid, V1.timeOf ev ≤ t0 + V1.TTLms)
    (ht1 : t1 ≤ t0 + V1.TTLms) :
    (rid, t0) ∈ (V1.step m0 (V1.Event.findReq (some rid) freq t0)).1 ∧
    V1.responsesFor rid
      (V1.runEvents m0
        (V1.Event.findReq (some rid) freq t0 ::
          (mid ++ [V1.Event.findReq (some rid) freq2 t1]))).2 = 1 ∧
    (∀ (m : V1.ProcessedMap) (now : Nat) (kv : JStr × Nat),
      kv ∈ V1.gcProcessed m now ↔ kv ∈ m ∧ now - kv.2 ≤ V1.TTLms) := by
  have hmem0 : (rid, t0) ∈ (V1.step m0 (V1.Event.findReq (some rid) freq t0)).1 := by
    simp only [V1.step, V1.stepFind, hrid, hfresh, if_false, V1.setKey]
    exact List.mem_append_right _ (by simp)
  refine ⟨hmem0, ?_, ?_⟩
  · have htime2 : ∀ ev ∈ mid ++ [V1.Event.findReq (some rid) freq2 t1],
        V1.timeOf ev ≤ t0 + V1.TTLms := by
      intro ev hev
      rcases List.mem_append.mp hev with h | h
      · exact htime ev h
      · simp only [List.mem_singleton] at h
        subst h
        simpa [V1.timeOf] using ht1
    have hmid : ∀ ev ∈ mid, V1.timeOf ev ≤ t0 + V1.TTLms := htime
    have hstep : V1.step m0 (V1.Event.findReq (some rid) freq t0) =
        (V1.setKey m0 rid t0, some rid) := by
      simp [V1.step, V1.stepFind, hrid, hfresh]
    have hmem : (rid, t0) ∈ V1.setKey m0 rid t0 := by
      simpa [hstep] using hmem0
    -- split the trace: the middle preserves the record and contributes no
    -- response for rid; the final repeat is ignored
    have hsplit := V1.runEvents_retained
      (mid ++ [V1.Event.findReq (some rid) freq2 t1])
      (V1.setKey m0 rid t0) hmem htime2
    simp only [V1.runEvents, hstep]
    simp only [V1.responsesFor, List.filter_append] at hsplit ⊢
    simp [V1.responsesFor] at hsplit
    have hrest : List.filter (fun x => x == rid)
        (V1.runEvents (V1.setKey m0 rid t0)
          (mid ++ [V1.Event.findReq (some rid) freq2 t1])).2 = [] := by
      rw [List.filter_eq_nil_iff]
      intro a ha
      simpa using hsplit.2 a ha
    simp [hrest]
  · intro m now kv
    simp only [V1.gcProcessed, List.mem_filter, Bool.not_eq_true']
    constructor
    · rintro ⟨h1, h2⟩
      refine ⟨h1, ?_⟩
      simpa [decide_eq_false_iff_not, Nat.not_lt] using h2
    · rintro ⟨h1, h2⟩
      refine ⟨h1, ?_⟩
      simp [decide_eq_false_iff_not, Nat.not_lt]
      omega

/-- C9 witness: requestId `r1` answered at t = 0, a GC tick and a repeat
at t = 60 s, and a final repeat at t = 120 s — exactly one response. -/
theorem C9_requestId_dedup_witness :
    V1.responsesFor (str "r1")
      (V1.runEvents []
        (V1.Event.findReq (some (str "r1")) none 0 ::
          ([V1.Event.gcTick 60000,
            V1.Event.findReq (some (str "r1")) none 60000] ++
            [V1.Event.findReq (some (str "r1")) none 120000]))).2 = 1 := by
  refine (C9_requestId_dedup (str "r1") none none 0 120000
    [V1.Event.gcTick 60000, V1.Event.findReq (some (str "r1")) none 60000]
    [] rfl rfl ?_ (by norm_num [V1.TTLms])).2.1
  intro ev hev
  simp only [List.mem_cons, List.not_mem_nil, or_false] at hev
  rcases hev with rfl | rfl
  · norm_num [V1.timeOf, V1.TTLms]
  · norm_num [V1.timeOf, V1.TTLms]

end SWRDS

namespace SWRDS

namespace V3

/-- Once fixed on the matching identity, a further matching sample is a
complete no-op: same state, no output. -/
theorem stepFixed (cfg : Cfg) (s : TextState) (e : TextEvent) (t : Nat)
    (f a : ℚ) (π : Option JStr)
    (hf : e.freq = some f) (ha : e.ant = some a) (htx : e.txInfoTx = none)
    (hpi : computedPi e = π)
    (hlastF : s.lastFrequency = some f)
    (hfix : s.signalFixed = true)
    (hpF : s.monitor.pendingFrequency = some f)
    (hpPi : s.monitor.pendingPi = π)
    (hpA : s.monitor.pendingAnt = some a) :
    handleTextFrame cfg s e t = (s, []) := by
  have htx' : hasTx e = false := by simp [hasTx, htx, truthyStr]
  simp [handleTextFrame, onTextMessage, htx', onTextBody, stageFreqSt,
    stageFreqOut, stageAntSt, stageAntOut, hf, ha, hpi, hlastF, hfix, hpF,
    hpPi, hpA]

/-- A matching strong sample that does not yet complete the window is
accumulated and nothing else happens. -/
theorem stepAccumShort (cfg : Cfg) (s : TextState) (e : TextEvent)
    (t t1 : Nat) (f a : ℚ)
    (hf : e.freq = some f) (ha : e.ant = some a) (htx : e.txInfoTx = none)
    (hf0 : f ≠ 0)
    (hlastF : s.lastFrequency = some f)
    (hfix : s.signalFixed = false)
    (hpA : s.monitor.pendingAnt = some a)
    (hws : s.signalWindowStart = t1) (ht1 : t1 ≠ 0)
    (helap : ((t - t1 : Nat) : ℚ) < stableTimeMsOf cfg) :
    handleTextFrame cfg s e t =
      ({ s with
          signalSum := s.signalSum + (e.sig.getD 0 - 45/4)
          signalCount := s.signalCount + 1 }, []) := by
  have htx' : hasTx e = false := by simp [hasTx, htx, truthyStr]
  have htn : truthyNum (some f) = true := by simp [truthyNum, hf0]
  simp [handleTextFrame, onTextMessage, htx', onTextBody, stageFreqSt,
    stageFreqOut, stageAntSt, stageAntOut, windowInit, accumulate, hf, ha,
    hlastF, hfix, hpA, hws, ht1, htn, helap]

/-- A matching strong sample that completes the window fixes the monitor:
the identity is frozen, broadcasting starts with one immediate dispatch
carrying the fresh generation, and the 3-second interval is armed. -/
theorem stepAccumFix (cfg : Cfg) (s : TextState) (e : TextEvent)
    (t t1 : Nat) (f a : ℚ)
    (hf : e.freq = some f) (ha : e.ant = some a) (htx : e.txInfoTx = none)
    (hf0 : f ≠ 0)
    (hsig : getThresholdForFrequency (some f) cfg ≤ e.sig.getD 0 - 45/4)
    (hlastF : s.lastFrequency = some f)
    (hfix : s.signalFixed = false)
    (hpA : s.monitor.pendingAnt = some a)
    (hws : s.signalWindowStart = t1) (ht1 : t1 ≠ 0)
    (hsum : getThresholdForFrequency (some f) cfg * s.signalCount ≤
      s.signalSum)
    (helap : ¬(((t - t1 : Nat) : ℚ) < stableTimeMsOf cfg)) :
    handleTextFrame cfg s e t =
      (⟨some f, true, s.signalSum + (e.sig.getD 0 - 45/4),
          s.signalCount + 1, t1, s.throttleTs,
          ⟨some f, computedPi e, some a, s.monitor.stableTimer, true, some f,
            piOrNull (computedPi e), some a, some 3000, 0,
            s.monitor.gen + 1⟩⟩,
        [OutMsg.dispatchSearch (s.monitor.gen + 1) (some f)
          (piOrNull (computedPi e)) (some a)]) := by
  have htx' : hasTx e = false := by simp [hasTx, htx, truthyStr]
  have htn : truthyNum (some f) = true := by simp [truthyNum, hf0]
  have hden : (0 : ℚ) < (s.signalCount : ℚ) + 1 := by positivity
  have hnavg : ¬((s.signalSum + (e.sig.getD 0 - 45/4)) /
      ((s.signalCount : ℚ) + 1) <
      getThresholdForFrequency (some f) cfg) := by
    rw [not_lt, le_div_iff₀ hden, mul_add, mul_one]
    exact add_le_add hsum hsig
  simp [handleTextFrame, onTextMessage, htx', onTextBody, stageFreqSt,
    stageFreqOut, stageAntSt, stageAntOut, windowInit, accumulate, fixState,
    clearAccum, stopFindBroadcast, startFindBroadcastSt,
    startFindBroadcastOut, startMon, broadcastDispatch, hf, ha, hlastF,
    hfix, hpA, hws, ht1, htn, helap, hnavg, truthyNum, hf0]

/-- The first matching sample processed from an idle accumulator opens the
window at its own timestamp and is accumulated, whatever the previous
identity was (a frequency or antenna change only triggers the resets
first); no search is dispatched. -/
theorem stepFirst (cfg : Cfg) (s : TextState) (e : TextEvent) (t1 : Nat)
    (f a : ℚ)
    (hf : e.freq = some f) (ha : e.ant = some a) (htx : e.txInfoTx = none)
    (hf0 : f ≠ 0)
    (hfix : s.signalFixed = false) (hws : s.signalWindowStart = 0)
    (hstable : (0 : ℚ) < stableTimeMsOf cfg) :
    ((handleTextFrame cfg s e t1).1).signalFixed = false ∧
    ((handleTextFrame cfg s e t1).1).lastFrequency = some f ∧
    ((handleTextFrame cfg s e t1).1).monitor.pendingAnt = some a ∧
    ((handleTextFrame cfg s e t1).1).signalWindowStart = t1 ∧
    ((handleTextFrame cfg s e t1).1).signalSum = e.sig.getD 0 - 45/4 ∧
    ((handleTextFrame cfg s e t1).1).signalCount = 1 ∧
    dispatchCount (handleTextFrame cfg s e t1).2 = 0 := by
  have htx' : hasTx e = false := by simp [hasTx, htx, truthyStr]
  have htn : truthyNum (some f) = true := by simp [truthyNum, hf0]
  by_cases hfc : e.freq = s.lastFrequency
  · have hl : s.lastFrequency = some f := hfc.symm.trans hf
    by_cases hac : s.monitor.pendingAnt = some a
    · have hres : handleTextFrame cfg s e t1 =
          ({ s with
              signalWindowStart := t1
              signalSum := 0 + (e.sig.getD 0 - 45/4)
              signalCount := 0 + 1 }, []) := by
        simp [handleTextFrame, onTextMessage, htx', onTextBody, stageFreqSt,
          stageFreqOut, stageAntSt, stageAntOut, windowInit, accumulate,
          hf, ha, hl, hac, hfix, hws, htn, hstable, Nat.sub_self]
      rw [hres]
      simp [dispatchCount, isDispatch, hl, hac, hfix]
    · have hac2 : ¬(some a = s.monitor.pendingAnt) := fun hcon =>
        hac hcon.symm
      have hres : handleTextFrame cfg s e t1 =
          ({ s with
              monitor := { stopFindBroadcast s.monitor with
                stableTimer := false
                pendingAnt := some a }
              signalFixed := false
              signalWindowStart := t1
              signalSum := 0 + (e.sig.getD 0 - 45/4)
              signalCount := 0 + 1 },
            [OutMsg.findPush e.freq none []]) := by
        simp [handleTextFrame, onTextMessage, htx', onTextBody, stageFreqSt,
          stageFreqOut, stageAntSt, stageAntOut, windowInit, accumulate,
          hf, ha, hl, hac2, hfix, hws, htn, hstable, Nat.sub_self,
          stopFindBroadcast]
      rw [hres]
      simp [dispatchCount, isDispatch, hl, stopFindBroadcast]
  · have hnl : ¬(s.lastFrequency = some f) := fun hcon =>
      hfc (hf.trans hcon.symm)
    have hnl2 : ¬(some f = s.lastFrequency) := fun hcon => hnl hcon.symm
    have hres : handleTextFrame cfg s e t1 =
        (let s1 : TextState :=
          { s with
            lastFrequency := e.freq
            monitor := resetMonitorState s.monitor
            throttleTs := 0
            signalFixed := false
            signalSum := 0
            signalCount := 0
            signalWindowStart := 0 }
        { s1 with
          monitor := { stopFindBroadcast s1.monitor with
            stableTimer := false
            pendingAnt := some a }
          signalFixed := false
          signalWindowStart := t1
          signalSum := 0 + (e.sig.getD 0 - 45/4)
          signalCount := 0 + 1 },
          [OutMsg.findPush none none [], OutMsg.findPush e.freq none []]) := by
      simp [handleTextFrame, onTextMessage, htx', onTextBody, stageFreqSt,
        stageFreqOut, stageAntSt, stageAntOut, windowInit, accumulate,
        hf, ha, hnl, hnl2, hfix, hws, htn, hstable, Nat.sub_self,
        resetMonitorState, stopFindBroadcast]
    rw [hres]
    simp [dispatchCount, isDispatch, hf, resetMonitorState,
      stopFindBroadcast]

/-- A sample completing a window whose mean falls below the threshold
resets the accumulator, stops broadcasting and leaves the monitor
not fixed. -/
theorem stepWindowReset (cfg : Cfg) (s : TextState) (e : TextEvent)
    (t t1 : Nat) (f a : ℚ)
    (hf : e.freq = some f) (ha : e.ant = some a) (htx : e.txInfoTx = none)
    (hf0 : f ≠ 0)
    (hlastF : s.lastFrequency = some f)
    (hfix : s.signalFixed = false)
    (hpA : s.monitor.pendingAnt = some a)
    (hws : s.signalWindowStart = t1) (ht1 : t1 ≠ 0)
    (helap : ¬(((t - t1 : Nat) : ℚ) < stableTimeMsOf cfg))
    (havg : (s.signalSum + (e.sig.getD 0 - 45/4)) /
        ((s.signalCount : ℚ) + 1) < getThresholdForFrequency (some f) cfg) :
    handleTextFrame cfg s e t =
      ({ s with
          signalSum := 0
          signalCount := 0
          signalWindowStart := 0
          monitor := stopFindBroadcast s.monitor }, []) := by
  have htx' : hasTx e = false := by simp [hasTx, htx, truthyStr]
  have htn : truthyNum (some f) = true := by simp [truthyNum, hf0]
  simp [handleTextFrame, onTextMessage, htx', onTextBody, stageFreqSt,
    stageFreqOut, stageAntSt, stageAntOut, windowInit, accumulate,
    clearAccum, hf, ha, hlastF, hfix, hpA, hws, ht1, htn, helap, havg]

theorem dispatchCount_append (a b : List OutMsg) :
    dispatchCount (a ++ b) = dispatchCount a + dispatchCount b := by
  simp [dispatchCount, List.filter_append]

/-- Once fixed on the scenario identity, the rest of the trace is a
no-op: state unchanged, nothing emitted, no further transition. -/
theorem runFixed (cfg : Cfg) (f a : ℚ) (π : Option JStr) :
    ∀ (rest : List (TextEvent × Nat)) (s : TextState),
    FixedInv f a π s →
    (∀ ep ∈ rest, GoodEvt cfg f a π ep) →
    runText cfg s rest = (s, []) ∧ fixCount cfg s rest = 0
  | [], s, _, _ => ⟨rfl, rfl⟩
  | ep :: rest, s, hinv, hgood => by
    obtain ⟨hf, ha, htx, hpi, _⟩ := hgood ep (List.mem_cons_self ep rest)
    have hstep := stepFixed cfg s ep.1 ep.2 f a π hf ha htx hpi hinv.lastF
      hinv.fixed hinv.pFreq hinv.pPi hinv.pAnt
    have ih := runFixed cfg f a π rest s hinv
      (fun e he => hgood e (List.mem_cons_of_mem _ he))
    constructor
    · simp [runText, hstep, ih.1]
    · simp [fixCount, hstep, hinv.fixed, ih.2]

/-- From an open window on the scenario identity, a trace of matching
strong samples one of which completes the window fixes the monitor exactly
once, dispatching exactly one immediate search. -/
theorem runAccum (cfg : Cfg) (f a : ℚ) (π : Option JStr) (t1 : Nat)
    (hf0 : f ≠ 0) :
    ∀ (rest : List (TextEvent × Nat)) (s : TextState),
    AccumInv cfg f a t1 s →
    (∀ ep ∈ rest, GoodEvt cfg f a π ep ∧ t1 ≤ ep.2) →
    (∃ ep ∈ rest, stableTimeMsOf cfg ≤ ((ep.2 - t1 : Nat) : ℚ)) →
    fixCount cfg s rest = 1 ∧
    dispatchCount (runText cfg s rest).2 = 1 ∧
    FixedInv f a π (runText cfg s rest).1
  | [], _, _, _, hex => absurd hex (by simp)
  | ep :: rest, s, hinv, hgood, hex => by
    obtain ⟨⟨hf, ha, htx, hpi, hsig⟩, _⟩ := hgood ep (List.mem_cons_self ep rest)
    have hgood' : ∀ e ∈ rest, GoodEvt cfg f a π e ∧ t1 ≤ e.2 :=
      fun e he => hgood e (List.mem_cons_of_mem _ he)
    by_cases helap : ((ep.2 - t1 : Nat) : ℚ) < stableTimeMsOf cfg
    · have hstep := stepAccumShort cfg s ep.1 ep.2 t1 f a hf ha htx hf0
        hinv.lastF hinv.fixed hinv.pAnt hinv.ws hinv.wsPos helap
      have hinv' : AccumInv cfg f a t1
          ({ s with
              signalSum := s.signalSum + (ep.1.sig.getD 0 - 45/4)
              signalCount := s.signalCount + 1 }) := by
        refine ⟨hinv.fixed, hinv.lastF, hinv.pAnt, hinv.ws, hinv.wsPos, ?_⟩
        have h1 := hinv.sumOK
        simp only []
        push_cast
        push_cast at h1
        linarith
      have hex' : ∃ e ∈ rest, stableTimeMsOf cfg ≤ ((e.2 - t1 : Nat) : ℚ) := by
        rcases hex with ⟨e, hmem, hcond⟩
        rcases List.mem_cons.mp hmem with rfl | hmem2
        · exact absurd hcond (not_le.mpr helap)
        · exact ⟨e, hmem2, hcond⟩
      have ih := runAccum cfg f a π t1 hf0 rest _ hinv' hgood' hex'
      refine ⟨?_, ?_, ?_⟩
      · simp [fixCount, hstep, hinv.fixed]
        simpa [hinv.fixed] using ih.1
      · simp [runText, hstep, dispatchCount_append, hinv.fixed]
        simpa [dispatchCount, hinv.fixed] using ih.2.1
      · simpa [runText, hstep, hinv.fixed] using ih.2.2
    · have hstep := stepAccumFix cfg s ep.1 ep.2 t1 f a hf ha htx hf0 hsig
        hinv.lastF hinv.fixed hinv.pAnt hinv.ws hinv.wsPos hinv.sumOK helap
      have hfixed : FixedInv f a π
          (⟨some f, true, s.signalSum + (ep.1.sig.getD 0 - 45/4),
            s.signalCount + 1, t1, s.throttleTs,
            ⟨some f, computedPi ep.1, some a, s.monitor.stableTimer, true,
              some f, piOrNull (computedPi ep.1), some a, some 3000, 0,
              s.monitor.gen + 1⟩⟩ : TextState) := by
        refine ⟨rfl, rfl, rfl, ?_, rfl, rfl, rfl, ?_, rfl, rfl⟩
        · simpa using hpi
        · simpa using congrArg piOrNull hpi
      have hrun := runFixed cfg f a π rest _ hfixed
        (fun e he => (hgood' e he).1)
      refine ⟨?_, ?_, ?_⟩
      · simp [fixCount, hstep, hinv.fixed, hrun.2]
      · simp [runText, hstep, hrun.1, dispatchCount_append, dispatchCount,
          isDispatch]
      · simpa [runText, hstep, hrun.1] using hfixed

end V3

end SWRDS

namespace SWRDS

/-- C2: over any telemetry trace on one unchanged
frequency/identifier/antenna whose samples all have calibrated signal at
or above the resolved threshold and whose window spans at least the
configured stable time, the monitor transitions from not-fixed to fixed
exactly once — freezing (frequency, identifier, antenna) as the pending
and active identity, dispatching exactly one immediate search and arming
the 3-second rebroadcast interval (`FixedInv`) — and a completed window
whose mean falls below the threshold instead resets the accumulator,
stops broadcasting and stays not-fixed. -/
theorem C2_stable_window_fixation :
    (∀ (cfg : V3.Cfg) (f a : ℚ) (π : Option JStr) (e1 : V3.TextEvent)
        (t1 : Nat) (rest : List (V3.TextEvent × Nat)) (s0 : V3.TextState),
      f ≠ 0 → t1 ≠ 0 → (0 : ℚ) < V3.stableTimeMsOf cfg →
      s0.signalFixed = false → s0.signalWindowStart = 0 →
      V3.GoodEvt cfg f a π (e1, t1) →
      (∀ ep ∈ rest, V3.GoodEvt cfg f a π ep ∧ t1 ≤ ep.2) →
      (∃ ep ∈ rest, V3.stableTimeMsOf cfg ≤ ((ep.2 - t1 : Nat) : ℚ)) →
      V3.fixCount cfg s0 ((e1, t1) :: rest) = 1 ∧
      V3.dispatchCount (V3.runText cfg s0 ((e1, t1) :: rest)).2 = 1 ∧
      V3.FixedInv f a π (V3.runText cfg s0 ((e1, t1) :: rest)).1) ∧
    (∀ (cfg : V3.Cfg) (s : V3.TextState) (e : V3.TextEvent) (t t1 : Nat)
        (f a : ℚ),
      e.freq = some f → e.ant = some a → e.txInfoTx = none → f ≠ 0 →
      s.lastFrequency = some f → s.signalFixed = false →
      s.monitor.pendingAnt = some a →
      s.signalWindowStart = t1 → t1 ≠ 0 →
      ¬(((t - t1 : Nat) : ℚ) < V3.stableTimeMsOf cfg) →
      (s.signalSum + (e.sig.getD 0 - 45/4)) / ((s.signalCount : ℚ) + 1) <
        V3.getThresholdForFrequency (some f) cfg →
      V3.handleTextFrame cfg s e t =
        ({ s with
            signalSum := 0
            signalCount := 0
            signalWindowStart := 0
            monitor := V3.stopFindBroadcast s.monitor }, [])) := by
  constructor
  · intro cfg f a π e1 t1 rest s0 hf0 ht1 hstable hsf hsw hgood1 hgoodr hex
    obtain ⟨hf, ha, htx, hpi, hsig⟩ := hgood1
    have hfirst := V3.stepFirst cfg s0 e1 t1 f a hf ha htx hf0 hsf hsw
      hstable
    have hinv : V3.AccumInv cfg f a t1 (V3.handleTextFrame cfg s0 e1 t1).1 := by
      refine ⟨hfirst.1, hfirst.2.1, hfirst.2.2.1, hfirst.2.2.2.1, ht1, ?_⟩
      rw [hfirst.2.2.2.2.1, hfirst.2.2.2.2.2.1]
      push_cast
      linarith
    have hrun := V3.runAccum cfg f a π t1 hf0 rest _ hinv hgoodr hex
    refine ⟨?_, ?_, ?_⟩
    · simp only [V3.fixCount]
      rw [hrun.1]
      simp [hfirst.1]
    · simp only [V3.runText]
      rw [V3.dispatchCount_append, hfirst.2.2.2.2.2.2, hrun.2.1]
    · simpa only [V3.runText] using hrun.2.2
  · intro cfg s e t t1 f a hf ha htx hf0 hlastF hfix hpA hws ht1 helap havg
    exact V3.stepWindowReset cfg s e t t1 f a hf ha htx hf0 hlastF hfix hpA
      hws ht1 helap havg

/-- C2 witness: two 38.75 dB samples at t = 1 s and t = 5 s on 101.1 MHz
against the default configuration (threshold 10, stable time 3 s) produce
exactly one fixation and one immediate dispatch; and a concrete completed
weak window resets the accumulator. -/
theorem C2_stable_window_fixation_witness :
    (V3.fixCount ⟨1, [], 10, none, 3, 500⟩
        ⟨none, false, 0, 0, 0, 0,
          ⟨none, none, none, false, false, none, none, none, none, 0, 0⟩⟩
        ((⟨some (101.1 : ℚ), some 50, none, none, some 0, none⟩, 1000) ::
          [(⟨some (101.1 : ℚ), some 50, none, none, some 0, none⟩, 5000)]) =
      1) ∧
    V3.dispatchCount
      (V3.runText ⟨1, [], 10, none, 3, 500⟩
        ⟨none, false, 0, 0, 0, 0,
          ⟨none, none, none, false, false, none, none, none, none, 0, 0⟩⟩
        ((⟨some (101.1 : ℚ), some 50, none, none, some 0, none⟩, 1000) ::
          [(⟨some (101.1 : ℚ), some 50, none, none, some 0, none⟩, 5000)])).2 =
      1 ∧
    V3.FixedInv (101.1 : ℚ) 0 none
      (V3.runText ⟨1, [], 10, none, 3, 500⟩
        ⟨none, false, 0, 0, 0, 0,
          ⟨none, none, none, false, false, none, none, none, none, 0, 0⟩⟩
        ((⟨some (101.1 : ℚ), some 50, none, none, some 0, none⟩, 1000) ::
          [(⟨some (101.1 : ℚ), some 50, none, none, some 0, none⟩, 5000)])).1 := by
  have hgood : V3.GoodEvt ⟨1, [], 10, none, 3, 500⟩ (101.1 : ℚ) 0 none
      (⟨some (101.1 : ℚ), some 50, none, none, some 0, none⟩, 1000) := by
    refine ⟨rfl, rfl, rfl, by decide, ?_⟩
    norm_num [V3.getThresholdForFrequency]
  have hgood2 : V3.GoodEvt ⟨1, [], 10, none, 3, 500⟩ (101.1 : ℚ) 0 none
      (⟨some (101.1 : ℚ), some 50, none, none, some 0, none⟩, 5000) := by
    refine ⟨rfl, rfl, rfl, by decide, ?_⟩
    norm_num [V3.getThresholdForFrequency]
  exact C2_stable_window_fixation.1 ⟨1, [], 10, none, 3, 500⟩ (101.1 : ℚ) 0
    none ⟨some (101.1 : ℚ), some 50, none, none, some 0, none⟩ 1000
    [(⟨some (101.1 : ℚ), some 50, none, none, some 0, none⟩, 5000)]
    ⟨none, false, 0, 0, 0, 0,
      ⟨none, none, none, false, false, none, none, none, none, 0, 0⟩⟩
    (by norm_num) (by norm_num) (by norm_num [V3.stableTimeMsOf]) rfl rfl
    hgood
    (by
      intro ep hep
      simp only [List.mem_singleton] at hep
      subst hep
      exact ⟨hgood2, by norm_num⟩)
    ⟨(⟨some (101.1 : ℚ), some 50, none, none, some 0, none⟩, 5000),
      by simp, by norm_num [V3.stableTimeMsOf]⟩

end SWRDS
